import Mathlib

set_option maxRecDepth 100000

/-!
Shallow embedding of the order-management service (Next.js route handlers over
Prisma) and proofs about its order pricing, customer-ledger maintenance,
soft-delete and statistics logic.

Modelling conventions:
* JavaScript numbers are modelled exactly as rationals, except that the value
  NaN (and the value undefined, which coerces to NaN in arithmetic) is tracked
  explicitly by the type `JSVal`.  Floating-point rounding noise is out of
  scope; every arithmetic operation in the handlers is embedded as the exact
  rational operation.
* Database rows are Lean structures; row sets are lists.  Fields the embedded
  handlers never read or write (createdAt of catalog rows, Customer.updatedAt,
  Modifier.type, row ids of nested OrderItem rows) are omitted.
* A request handler is a function from the database state and the parsed JSON
  body to `Except ErrResp result`; `.error ⟨s, m⟩` is the JSON error response
  with HTTP status `s`.  An error leaves the state unchanged (all writes in the
  source happen either after all validations or inside one transaction).
* Optional JSON body fields are `Option`; a client-sent number field is a
  `JSVal` (`undef` when the field is absent or not a number).
* The Order money fields `discountPercent`, `discountAmount` and `amount` are
  `JSVal` because one code path (PATCH with the field absent) computes NaN and
  the backing float columns can receive it; `Customer.totalSpent` likewise.
  All other numeric fields are plain rationals.
-/

/-- A JavaScript numeric value as it flows through the handlers: a real
number, NaN, or undefined (an absent field). -/
inductive JSVal where
  | undef : JSVal
  | nan : JSVal
  | num : ℚ → JSVal
deriving DecidableEq, Repr

/-- JS `Number(x)` restricted to the values we track: undefined becomes NaN,
numbers stay themselves. -/
def jsNumber : JSVal → JSVal
  | .undef => .nan
  | v => v

/-- JS nullish coalescing `a ?? b`: returns `b` only when `a` is
undefined (we do not model null request fields), otherwise `a` - in
particular NaN is NOT caught. -/
def jsCoalesce : JSVal → JSVal → JSVal
  | .undef, b => b
  | a, _ => a

/-- JS `x || d` where `d` is a number: NaN, undefined and 0 are falsy. -/
def jsOrElse : JSVal → ℚ → ℚ
  | .num q, d => if q = 0 then d else q
  | _, d => d

/-- JS `Math.min`: NaN (or undefined, coerced) poisons the result. -/
def jsMin : JSVal → JSVal → JSVal
  | .num a, .num b => .num (min a b)
  | _, _ => .nan

/-- JS `Math.max`: NaN (or undefined, coerced) poisons the result. -/
def jsMax : JSVal → JSVal → JSVal
  | .num a, .num b => .num (max a b)
  | _, _ => .nan

/-- JS `+` on numbers, with NaN propagation. -/
def jsAdd : JSVal → JSVal → JSVal
  | .num a, .num b => .num (a + b)
  | _, _ => .nan

/-- JS binary `-` on numbers, with NaN propagation. -/
def jsSub : JSVal → JSVal → JSVal
  | .num a, .num b => .num (a - b)
  | _, _ => .nan

/-- JS `*` on numbers, with NaN propagation. -/
def jsMul : JSVal → JSVal → JSVal
  | .num a, .num b => .num (a * b)
  | _, _ => .nan

/-- JS `/` on numbers, with NaN propagation.  Division by zero yields a JS
infinity, which this model collapses into `nan`; every division performed by
the embedded handlers has a provably nonzero divisor, so the case is
unreachable there. -/
def jsDiv : JSVal → JSVal → JSVal
  | .num a, .num b => if b = 0 then .nan else .num (a / b)
  | _, _ => .nan

/-- JS strict `>` comparison; any comparison involving NaN is false. -/
def jsGtB : JSVal → JSVal → Bool
  | .num a, .num b => decide (b < a)
  | _, _ => false

/-- JS strict equality test on numbers; NaN equals nothing. -/
def jsEqB : JSVal → JSVal → Bool
  | .num a, .num b => decide (a = b)
  | _, _ => false

/-- JS strict inequality `!==` on numbers; true whenever NaN is involved. -/
def jsNeB : JSVal → JSVal → Bool
  | .num a, .num b => decide (a ≠ b)
  | _, _ => true

/-- Sum of a list of JS values (claim-side formulation of the revenue
reductions in the handlers). -/
def jsSum (l : List JSVal) : JSVal :=
  l.foldl jsAdd (.num 0)

/-- Catalog product row (`Product` table). -/
structure Product where
  id : String
  name : String
  price : ℚ
  cost : ℚ
  isActive : Bool
  hasModifiers : Bool
deriving DecidableEq, Repr

/-- Catalog modifier ("topping") row (`Modifier` table). -/
structure Modifier where
  id : String
  name : String
  price : ℚ
  cost : ℚ
  isActive : Bool
deriving DecidableEq, Repr

/-- Snapshot row (`OrderItemModifier` table) frozen at order time. -/
structure OrderItemModifier where
  modifierId : String
  nameAtTime : String
  priceAtTime : ℚ
  costAtTime : ℚ
deriving DecidableEq, Repr

/-- Line-item row (`OrderItem` table) with its owned snapshot rows. -/
structure OrderItem where
  productId : String
  quantity : ℚ
  unitPrice : ℚ
  lineTotal : ℚ
  modifiers : List OrderItemModifier
deriving DecidableEq, Repr

/-- Order row (`Order` table) with its owned items.  Timestamps are naturals. -/
structure Order where
  id : String
  customerName : String
  customerPhone : String
  customerId : Option String
  subtotal : ℚ
  discountPercent : JSVal
  discountAmount : JSVal
  discountNote : Option String
  amount : JSVal
  items : List OrderItem
  createdAt : ℕ
  deletedAt : Option ℕ
deriving DecidableEq, Repr

/-- Customer row (`Customer` table); `phone` is the unique natural key. -/
structure Customer where
  id : String
  phone : String
  name : String
  orderCount : ℤ
  totalSpent : JSVal
  lastOrderAt : Option ℕ
deriving DecidableEq, Repr

/-- The whole database state. -/
structure DB where
  products : List Product
  modifiers : List Modifier
  orders : List Order
  customers : List Customer
deriving DecidableEq, Repr

/-- Error response `{ error }` with its HTTP status. -/
structure ErrResp where
  status : ℕ
  message : String
deriving DecidableEq, Repr

/-- Parsed element of the `items` / `newItems` request arrays. -/
structure IncomingItem where
  productId : String
  quantity : JSVal
  modifierIds : Option (List String)
deriving DecidableEq, Repr

/-- Parsed body of `POST /api/orders`. -/
structure CreateOrderRequest where
  customerName : Option String
  customerPhone : Option String
  items : Option (List IncomingItem)
  discountPercent : JSVal
  discountNote : Option String
deriving DecidableEq, Repr

/-- Parsed body of `PATCH /api/orders/[id]`. -/
structure EditOrderRequest where
  customerName : Option String
  customerPhone : Option String
  discountPercent : JSVal
  discountNote : Option String
  newItems : Option (List IncomingItem)
deriving DecidableEq, Repr

/-- An incoming item after normalisation. -/
structure NormalizedItem where
  productId : String
  quantity : ℚ
  modifierIds : List String
deriving DecidableEq, Repr

/-- Quantity normalisation used by both order handlers:
`Math.max(1, Number(i.quantity) || 1)`. -/
def normalizeQuantity (q : JSVal) : ℚ :=
  max 1 (jsOrElse (jsNumber q) 1)

/-- Item normalisation used by both order handlers (quantity coercion plus
`Array.isArray(i.modifierIds) ? i.modifierIds : []`). -/
def normalizeItem (i : IncomingItem) : NormalizedItem :=
  { productId := i.productId
    quantity := normalizeQuantity i.quantity
    modifierIds := i.modifierIds.getD [] }

/-- `prisma.product.findUnique`-style lookup by id. -/
def findProduct (db : DB) (pid : String) : Option Product :=
  db.products.find? (fun p => p.id == pid)

/-- Lookup in the `modifierMap` both order handlers build: the map only
contains modifiers fetched with `isActive: true`, keyed by id.  The global
id list was passed through `.filter(Boolean)`, so the empty string never
reaches the fetch. -/
def lookupActiveModifier (db : DB) (mid : String) : Option Modifier :=
  if mid = "" then none
  else db.modifiers.find? (fun m => m.id == mid && m.isActive)

/-- Builds one OrderItem row from a normalised incoming item, mirroring the
`orderItemsData` / `newItemsData` construction: unknown or inactive modifier
ids are silently dropped, `unitPrice = product.price + sum of modifier
prices`, `lineTotal = unitPrice * quantity`, and the applied modifiers are
snapshotted.  `none` when the product lookup fails (the source's non-null
assertion would throw). -/
def buildOrderItem (db : DB) (i : NormalizedItem) : Option OrderItem :=
  (findProduct db i.productId).map (fun product =>
    let appliedModifiers := i.modifierIds.filterMap (lookupActiveModifier db)
    let toppingsPerUnit := appliedModifiers.foldl (fun sum m => sum + m.price) 0
    let unitPrice := product.price + toppingsPerUnit
    let lineTotal := unitPrice * i.quantity
    { productId := product.id
      quantity := i.quantity
      unitPrice := unitPrice
      lineTotal := lineTotal
      modifiers := appliedModifiers.map (fun m =>
        { modifierId := m.id
          nameAtTime := m.name
          priceAtTime := m.price
          costAtTime := m.cost }) })

/-- Builds all items; `none` as soon as one build fails. -/
def buildOrderItems (db : DB) : List NormalizedItem → Option (List OrderItem)
  | [] => some []
  | i :: rest =>
    match buildOrderItem db i, buildOrderItems db rest with
    | some x, some xs => some (x :: xs)
    | _, _ => none

/-- The `products.length !== productIds.length` existence check both order
handlers run against the deduplicated requested product ids. -/
def allProductsFound (db : DB) (normalizedItems : List NormalizedItem) : Bool :=
  let productIds := (normalizedItems.map (fun i => i.productId)).dedup
  let products := db.products.filter (fun p => productIds.contains p.id)
  products.length == productIds.length

/-- The customer create-or-update routine `handleCustomerAsync` of
`POST /api/orders` (fire-and-forget, modelled as running to completion):
an existing customer (found by phone) gets `orderCount + 1`,
`totalSpent + orderAmount`, `lastOrderAt = now` and the submitted name when
it differs; otherwise a fresh customer row is created.  Either way the
order row is linked to the customer. -/
def handleCustomerAsync (db : DB) (orderId customerName customerPhone : String)
    (orderAmount : JSVal) (now : ℕ) (freshId : String) : DB :=
  match db.customers.find? (fun c => c.phone == customerPhone) with
  | some existingCustomer =>
    let newName :=
      if existingCustomer.name ≠ customerName then customerName
      else existingCustomer.name
    { db with
      customers := db.customers.map (fun c =>
        if c.id = existingCustomer.id then
          { c with
            orderCount := c.orderCount + 1
            totalSpent := jsAdd c.totalSpent orderAmount
            lastOrderAt := some now
            name := newName }
        else c)
      orders := db.orders.map (fun o =>
        if o.id = orderId then { o with customerId := some existingCustomer.id }
        else o) }
  | none =>
    let newCustomer : Customer :=
      { id := freshId
        phone := customerPhone
        name := customerName
        orderCount := 1
        totalSpent := orderAmount
        lastOrderAt := some now }
    { db with
      customers := db.customers ++ [newCustomer]
      orders := db.orders.map (fun o =>
        if o.id = orderId then { o with customerId := some freshId } else o) }

/-- Validation and construction of the new order row of `POST /api/orders`,
up to (and excluding) the customer reconciliation. -/
def buildCreateOrder (db : DB) (req : CreateOrderRequest) (now : ℕ)
    (oid : String) : Except ErrResp Order :=
  let phone := (req.customerPhone.getD "").trim
  match req.customerName with
  | none => .error ⟨400, "customerName is required"⟩
  | some customerName =>
    if customerName = "" then .error ⟨400, "customerName is required"⟩
    else
      match req.items with
      | none => .error ⟨400, "At least one item is required"⟩
      | some rawItems =>
        if rawItems.isEmpty then .error ⟨400, "At least one item is required"⟩
        else
          let normalisedItems := rawItems.map normalizeItem
          if ¬ allProductsFound db normalisedItems then
            .error ⟨400, "One or more products not found"⟩
          else
            match buildOrderItems db normalisedItems with
            | none => .error ⟨500, "Something went wrong"⟩
            | some orderItemsData =>
              let subtotal :=
                orderItemsData.foldl (fun sum item => sum + item.lineTotal) 0
              let safePercent :=
                max 0 (min 100 (jsOrElse (jsNumber req.discountPercent) 0))
              let discountAmount := subtotal * safePercent / 100
              let finalAmount := subtotal - discountAmount
              .ok
                { id := oid
                  customerName := customerName
                  customerPhone := phone
                  customerId := none
                  subtotal := subtotal
                  discountPercent := .num safePercent
                  discountAmount := .num discountAmount
                  discountNote :=
                    if 0 < safePercent then req.discountNote else none
                  amount := .num finalAmount
                  items := orderItemsData
                  createdAt := now
                  deletedAt := none }

/-- The `POST /api/orders` handler: create the order, then (when the trimmed
phone has exactly 10 characters - a length check only) run the customer
reconciliation.  Returns the final state and the created order row. -/
def ordersPOST (db : DB) (req : CreateOrderRequest) (now : ℕ)
    (oid freshCustomerId : String) : Except ErrResp (DB × Order) :=
  match buildCreateOrder db req now oid with
  | .error e => .error e
  | .ok order =>
    let db1 : DB := { db with orders := db.orders ++ [order] }
    if order.customerPhone.length = 10 then
      .ok (handleCustomerAsync db1 order.id order.customerName
            order.customerPhone order.amount now freshCustomerId, order)
    else
      .ok (db1, order)

/-- Digit filtering `replace(/\D/g, "")` applied to the edited phone. -/
def stripNonDigits (s : String) : String :=
  String.mk (s.data.filter Char.isDigit)

/-- `customerName?.trim() || currentOrder.customerName` of the PATCH handler. -/
def patchTrimmedName (req : EditOrderRequest) (currentOrder : Order) : String :=
  match req.customerName with
  | some s => if s.trim = "" then currentOrder.customerName else s.trim
  | none => currentOrder.customerName

/-- `(customerPhone?.trim() || currentOrder.customerPhone).replace(/\D/g, "")`
of the PATCH handler. -/
def patchTrimmedPhone (req : EditOrderRequest) (currentOrder : Order) : String :=
  stripNonDigits
    (match req.customerPhone with
     | some s => if s.trim = "" then currentOrder.customerPhone else s.trim
     | none => currentOrder.customerPhone)

/-- The PATCH phone validation: reject a nonempty digits-only phone whose
length is not 10. -/
def patchPhoneInvalid (req : EditOrderRequest) (currentOrder : Order) : Bool :=
  let trimmedPhone := patchTrimmedPhone req currentOrder
  trimmedPhone ≠ "" && trimmedPhone.length ≠ 10 && trimmedPhone.length ≠ 0

/-- The PATCH discount clamp
`Math.max(0, Math.min(100, Number(discountPercent) ?? current))`.
Since `Number` never returns a nullish value, the `??` fallback is dead:
an absent field becomes NaN and NaN passes the clamp unchanged. -/
def patchSafePercent (dp : JSVal) (currentPercent : JSVal) : JSVal :=
  jsMax (.num 0) (jsMin (.num 100) (jsCoalesce (jsNumber dp) currentPercent))

/-- Processing of the optional `newItems` array of the PATCH handler:
normalise, check the products exist (400 otherwise) and build the rows. -/
def processNewItems (db : DB) (newItems : Option (List IncomingItem)) :
    Except ErrResp (List OrderItem) :=
  match newItems with
  | none => .ok []
  | some rawItems =>
    if rawItems.isEmpty then .ok []
    else
      let normalizedItems := rawItems.map normalizeItem
      if ¬ allProductsFound db normalizedItems then
        .error ⟨400, "One or more products not found"⟩
      else
        match buildOrderItems db normalizedItems with
        | none => .error ⟨500, "Failed to update order"⟩
        | some newItemsData => .ok newItemsData

/-- Aggregate decrement `totalSpent: { decrement }, orderCount: { decrement }`
run against the previously linked customer inside the PATCH transaction. -/
def decrementCustomer (db : DB) (customerId : String) (amount : JSVal) : DB :=
  { db with
    customers := db.customers.map (fun c =>
      if c.id = customerId then
        { c with
          totalSpent := jsSub c.totalSpent amount
          orderCount := c.orderCount - 1 }
      else c) }

/-- The recomputed subtotal of an edit: `existingItemsTotal + newItemsTotal`,
both accumulated exactly as the handler does. -/
def patchNewSubtotal (currentOrder : Order) (newItemsData : List OrderItem) : ℚ :=
  currentOrder.items.foldl (fun sum item => sum + item.lineTotal) 0
    + newItemsData.foldl (fun sum item => sum + item.lineTotal) 0

/-- The recomputed discount amount of an edit:
`(newSubtotal * safePercent) / 100` in JS arithmetic. -/
def patchNewDiscountAmount (currentOrder : Order) (req : EditOrderRequest)
    (newItemsData : List OrderItem) : JSVal :=
  jsDiv
    (jsMul (.num (patchNewSubtotal currentOrder newItemsData))
      (patchSafePercent req.discountPercent currentOrder.discountPercent))
    (.num 100)

/-- The recomputed final amount of an edit: `newSubtotal - newDiscountAmount`
in JS arithmetic. -/
def patchNewFinalAmount (currentOrder : Order) (req : EditOrderRequest)
    (newItemsData : List OrderItem) : JSVal :=
  jsSub (.num (patchNewSubtotal currentOrder newItemsData))
    (patchNewDiscountAmount currentOrder req newItemsData)

/-- First transaction step of the PATCH: when the order was linked and the
amount changed - or, failing that, the phone changed - decrement the old
customer by the prior amount and one order. -/
def patchDecrementStep (db : DB) (currentOrder : Order)
    (amountChanged phoneChanged : Bool) : DB :=
  match currentOrder.customerId with
  | some oldCustomerId =>
    if amountChanged then decrementCustomer db oldCustomerId currentOrder.amount
    else if phoneChanged then decrementCustomer db oldCustomerId currentOrder.amount
    else db
  | none => db

/-- Second transaction step of the PATCH: create the new OrderItem rows,
owned by the edited order. -/
def patchAppendItems (db : DB) (orderId : String)
    (newItemsData : List OrderItem) : DB :=
  { db with
    orders := db.orders.map (fun o =>
      if o.id = orderId then { o with items := o.items ++ newItemsData } else o) }

/-- Third transaction step of the PATCH: when the new phone has exactly 10
characters, find-or-create the customer behind it, incrementing its
aggregates by the NEW final amount; returns the resolved customer id. -/
def patchResolveCustomer (db : DB) (trimmedPhone trimmedName : String)
    (newFinalAmount : JSVal) (now : ℕ) (freshCustomerId : String) :
    Option String × DB :=
  if trimmedPhone.length = 10 then
    match db.customers.find? (fun c => c.phone == trimmedPhone) with
    | some existingCustomer =>
      (some existingCustomer.id,
       { db with
         customers := db.customers.map (fun c =>
           if c.id = existingCustomer.id then
             { c with
               name := trimmedName
               totalSpent := jsAdd c.totalSpent newFinalAmount
               orderCount := c.orderCount + 1
               lastOrderAt := some now }
           else c) })
    | none =>
      (some freshCustomerId,
       { db with
         customers := db.customers ++
           [{ id := freshCustomerId
              phone := trimmedPhone
              name := trimmedName
              orderCount := 1
              totalSpent := newFinalAmount
              lastOrderAt := some now }] })
  else (none, db)

/-- Final transaction step of the PATCH: update the order row itself. -/
def patchUpdateOrder (db : DB) (orderId : String) (currentOrder : Order)
    (req : EditOrderRequest) (newItemsData : List OrderItem)
    (newCustomerId : Option String) : DB :=
  let safePercent := patchSafePercent req.discountPercent currentOrder.discountPercent
  { db with
    orders := db.orders.map (fun o =>
      if o.id = orderId then
        { o with
          customerName := patchTrimmedName req currentOrder
          customerPhone := patchTrimmedPhone req currentOrder
          customerId := newCustomerId
          subtotal := patchNewSubtotal currentOrder newItemsData
          discountPercent := safePercent
          discountAmount := patchNewDiscountAmount currentOrder req newItemsData
          discountNote :=
            if jsGtB safePercent (.num 0) then
              match req.discountNote with
              | some n => some n
              | none => currentOrder.discountNote
            else none
          amount := patchNewFinalAmount currentOrder req newItemsData }
      else o) }

/-- The transaction body of `PATCH /api/orders/[id]` after all validations:
conditional decrement of the old customer, creation of the new item rows,
create-or-update of the customer behind the new phone, and the final order
update. -/
def patchApplyTx (db : DB) (orderId : String) (currentOrder : Order)
    (req : EditOrderRequest) (newItemsData : List OrderItem) (now : ℕ)
    (freshCustomerId : String) : DB :=
  let trimmedPhone := patchTrimmedPhone req currentOrder
  let newFinalAmount := patchNewFinalAmount currentOrder req newItemsData
  let phoneChanged := trimmedPhone ≠ currentOrder.customerPhone
  let amountChanged := jsNeB newFinalAmount currentOrder.amount
  let db1 := patchDecrementStep db currentOrder amountChanged phoneChanged
  let db2 := patchAppendItems db1 orderId newItemsData
  let resolved := patchResolveCustomer db2 trimmedPhone
    (patchTrimmedName req currentOrder) newFinalAmount now freshCustomerId
  patchUpdateOrder resolved.2 orderId currentOrder req newItemsData resolved.1

/-- The `PATCH /api/orders/[id]` handler. -/
def orderPATCH (db : DB) (orderId : String) (req : EditOrderRequest) (now : ℕ)
    (freshCustomerId : String) : Except ErrResp DB :=
  match db.orders.find? (fun o => o.id == orderId) with
  | none => .error ⟨404, "Order not found"⟩
  | some currentOrder =>
    if currentOrder.deletedAt.isSome then
      .error ⟨400, "Cannot edit a deleted order"⟩
    else if patchPhoneInvalid req currentOrder then
      .error ⟨400, "Phone must be exactly 10 digits or empty"⟩
    else
      match processNewItems db req.newItems with
      | .error e => .error e
      | .ok newItemsData =>
        .ok (patchApplyTx db orderId currentOrder req newItemsData now freshCustomerId)

/-- The `DELETE /api/orders/[id]` handler: soft delete, setting only
`deletedAt` (a missing row makes `prisma.order.update` throw, which the
handler reports as 500). -/
def orderDELETE (db : DB) (orderId : String) (now : ℕ) : Except ErrResp DB :=
  if db.orders.any (fun o => o.id == orderId) then
    .ok { db with
          orders := db.orders.map (fun o =>
            if o.id = orderId then { o with deletedAt := some now } else o) }
  else
    .error ⟨500, "Failed to delete order"⟩

/-- Nonempty all-digit test `/^\d+$/.test(s)`. -/
def isAllDigits (s : String) : Bool :=
  s ≠ "" && s.data.all Char.isDigit

/-- The `POST /api/customers` handler: requires truthy name and phone,
rejects a trimmed phone that is not exactly 10 digit characters with 400,
rejects a duplicate phone with 409, otherwise creates the customer with the
schema defaults `orderCount = 0`, `totalSpent = 0`. -/
def customersPOST (db : DB) (name phone : Option String) (freshId : String) :
    Except ErrResp (DB × Customer) :=
  match name, phone with
  | some n, some p =>
    if n = "" ∨ p = "" then .error ⟨400, "name and phone are required"⟩
    else
      let normalizedPhone := p.trim
      if normalizedPhone.length ≠ 10 ∨ ¬ isAllDigits normalizedPhone then
        .error ⟨400, "Phone must be exactly 10 digits"⟩
      else if (db.customers.find? (fun c => c.phone == normalizedPhone)).isSome then
        .error ⟨409, "Customer with this phone number already exists"⟩
      else
        let customer : Customer :=
          { id := freshId
            phone := normalizedPhone
            name := n.trim
            orderCount := 0
            totalSpent := .num 0
            lastOrderAt := none }
        .ok ({ db with customers := db.customers ++ [customer] }, customer)
  | _, _ => .error ⟨400, "name and phone are required"⟩

/-- Parsed body of `PATCH /api/products/[id]`: `price` and `cost` are `num`
when the client sent a genuine number (`typeof x === "number"` and not NaN),
`nan` when it sent NaN, `undef` otherwise. -/
structure ProductPatchRequest where
  name : Option String
  price : JSVal
  cost : JSVal
  hasModifiers : Option Bool
deriving DecidableEq, Repr

/-- The `PATCH /api/products/[id]` handler: partial update of the provided
valid fields; 400 when none is valid, 500 when the row is missing. -/
def productPATCH (db : DB) (pid : String) (req : ProductPatchRequest) :
    Except ErrResp DB :=
  let upName : Option String :=
    match req.name with
    | some s => if s.trim = "" then none else some s.trim
    | none => none
  let upPrice : Option ℚ := match req.price with | .num q => some q | _ => none
  let upCost : Option ℚ := match req.cost with | .num q => some q | _ => none
  if upName.isNone ∧ upPrice.isNone ∧ upCost.isNone ∧ req.hasModifiers.isNone then
    .error ⟨400, "No valid fields to update"⟩
  else if db.products.any (fun p => p.id == pid) then
    .ok { db with
          products := db.products.map (fun p =>
            if p.id = pid then
              { p with
                name := upName.getD p.name
                price := upPrice.getD p.price
                cost := upCost.getD p.cost
                hasModifiers := req.hasModifiers.getD p.hasModifiers }
            else p) }
  else
    .error ⟨500, "Failed to update product"⟩

/-- The `PATCH /api/modifiers/[id]` handler: same shape as the product patch,
over name, price and cost. -/
def modifierPATCH (db : DB) (mid : String) (name : Option String)
    (price cost : JSVal) : Except ErrResp DB :=
  let upName : Option String :=
    match name with
    | some s => if s.trim = "" then none else some s.trim
    | none => none
  let upPrice : Option ℚ := match price with | .num q => some q | _ => none
  let upCost : Option ℚ := match cost with | .num q => some q | _ => none
  if upName.isNone ∧ upPrice.isNone ∧ upCost.isNone then
    .error ⟨400, "No valid fields to update"⟩
  else if db.modifiers.any (fun m => m.id == mid) then
    .ok { db with
          modifiers := db.modifiers.map (fun m =>
            if m.id = mid then
              { m with
                name := upName.getD m.name
                price := upPrice.getD m.price
                cost := upCost.getD m.cost }
            else m) }
  else
    .error ⟨500, "Failed to update modifier"⟩

/-- Query parameters of `GET /api/orders` (pagination and ordering are not
modelled; the result below is the full matching set of which the handler
returns a sorted leading slice). -/
structure OrderListParams where
  startDate : Option ℕ
  endDate : Option ℕ
  search : Option String
  hasDiscount : Option String
  productIds : Option (List String)
deriving DecidableEq, Repr

/-- Substring test used for the search filters (Prisma `contains`). -/
def strContainsSub (hay needle : String) : Bool :=
  2 ≤ (hay.splitOn needle).length

/-- The Prisma `where` clause of `GET /api/orders`: always `deletedAt: null`,
plus the optional date range, customer search (name case-insensitive, phone
exact-case), discount and product filters. -/
def orderMatchesWhere (p : OrderListParams) (o : Order) : Bool :=
  o.deletedAt.isNone
  && (match p.startDate with
      | some s => decide (s ≤ o.createdAt)
      | none => true)
  && (match p.endDate with
      | some e => decide (o.createdAt ≤ e)
      | none => true)
  && (match p.search.map String.trim with
      | some s =>
        if s = "" then true
        else strContainsSub o.customerName.toLower s.toLower
          || strContainsSub o.customerPhone s
      | none => true)
  && (if p.hasDiscount = some "yes" then jsGtB o.discountPercent (.num 0)
      else if p.hasDiscount = some "no" then jsEqB o.discountPercent (.num 0)
      else true)
  && (match p.productIds with
      | some pids =>
        if pids.isEmpty then true
        else o.items.any (fun i => pids.contains i.productId)
      | none => true)

/-- The matching set of `GET /api/orders`. -/
def ordersGET (db : DB) (p : OrderListParams) : List Order :=
  db.orders.filter (orderMatchesWhere p)

/-- The order set the stats endpoint aggregates: non-deleted orders with
`createdAt` in the inclusive date range. -/
def statsOrders (db : DB) (startDate endDate : ℕ) : List Order :=
  db.orders.filter (fun o =>
    o.deletedAt.isNone && decide (startDate ≤ o.createdAt)
      && decide (o.createdAt ≤ endDate))

/-- Cost of the product referenced by an item, read from the CURRENT catalog
row (the stats endpoint joins `product: true`); referential integrity makes
the row present, `0` is the out-of-model default. -/
def productCostOf (db : DB) (pid : String) : ℚ :=
  match findProduct db pid with
  | some p => p.cost
  | none => 0

/-- The nested cost accumulation loop of the stats endpoint:
`totalCost += item.product.cost * quantity` and, per snapshot modifier,
`totalCost += mod.costAtTime * quantity`. -/
def statsTotalCost (db : DB) (orders : List Order) : ℚ :=
  orders.foldl (fun acc o =>
    o.items.foldl (fun acc2 item =>
      item.modifiers.foldl (fun acc3 m => acc3 + m.costAtTime * item.quantity)
        (acc2 + productCostOf db item.productId * item.quantity)) acc) 0

/-- Claim-side cost of one item: current product cost times quantity plus the
frozen modifier costs times quantity. -/
def specItemCost (db : DB) (item : OrderItem) : ℚ :=
  productCostOf db item.productId * item.quantity
    + (item.modifiers.map (fun m => m.costAtTime * item.quantity)).sum

/-- Claim-side cost of one order: sum of its item costs. -/
def specOrderCost (db : DB) (o : Order) : ℚ :=
  (o.items.map (specItemCost db)).sum

/-- The `summary` object of `GET /api/stats`. -/
structure StatsSummary where
  totalRevenue : JSVal
  totalOrders : ℕ
  totalCost : ℚ
  totalProfit : JSVal
  avgOrderValue : JSVal
  profitMargin : JSVal
deriving DecidableEq, Repr

/-- The `GET /api/stats` summary computation over a resolved date range. -/
def statsGET (db : DB) (startDate endDate : ℕ) : StatsSummary :=
  let orders := statsOrders db startDate endDate
  let totalRevenue := orders.foldl (fun sum o => jsAdd sum o.amount) (.num 0)
  let totalOrders := orders.length
  let totalCost := statsTotalCost db orders
  let totalProfit := jsSub totalRevenue (.num totalCost)
  let avgOrderValue :=
    if 0 < totalOrders then jsDiv totalRevenue (.num (totalOrders : ℚ))
    else .num 0
  let profitMargin :=
    if jsGtB totalRevenue (.num 0) then
      jsMul (jsDiv totalProfit totalRevenue) (.num 100)
    else .num 0
  { totalRevenue := totalRevenue
    totalOrders := totalOrders
    totalCost := totalCost
    totalProfit := totalProfit
    avgOrderValue := avgOrderValue
    profitMargin := profitMargin }

/-- Claim-side total quantity of the items referencing a given product over
the ranged, non-deleted orders the stats endpoint aggregates. -/
def soldQuantity (db : DB) (pid : String) (startDate endDate : ℕ) : ℚ :=
  ((statsOrders db startDate endDate).map (fun o =>
    ((o.items.filter (fun i => i.productId == pid)).map (fun i => i.quantity)).sum)).sum

/-! Concrete fixtures used to instantiate the theorems below. -/

/-- Fallback order used only as an `Option.getD` default. -/
def fallbackOrder : Order :=
  { id := "", customerName := "", customerPhone := "", customerId := none
    subtotal := 0, discountPercent := .num 0, discountAmount := .num 0
    discountNote := none, amount := .num 0, items := [], createdAt := 0
    deletedAt := none }

/-- Fallback database used only as an `Option.getD` default. -/
def fallbackDB : DB := { products := [], modifiers := [], orders := [], customers := [] }

/-- One-product catalog: price 1, cost 0. -/
def exC1DB : DB :=
  { products := [{ id := "p1", name := "A", price := 1, cost := 0,
                   isActive := true, hasModifiers := false }]
    modifiers := [], orders := [], customers := [] }

/-- Creation request: one unit of `p1`, 0.125 percent discount. -/
def exC1Req : CreateOrderRequest :=
  { customerName := some "N", customerPhone := none
    items := some [{ productId := "p1", quantity := .num 1, modifierIds := none }]
    discountPercent := .num (1/8), discountNote := none }

/-- Result of the C1 example creation. -/
def exC1Res : Except ErrResp (DB × Order) := ordersPOST exC1DB exC1Req 0 "o1" "c1"

/-- The state/order pair of the C1 example creation. -/
def exC1Pair : DB × Order := exC1Res.toOption.getD (fallbackDB, fallbackOrder)

/-- An order of amount 100 linked to customer `c1`. -/
def exC2Order : Order :=
  { id := "o1", customerName := "N", customerPhone := "9876543210"
    customerId := some "c1", subtotal := 100, discountPercent := .num 0
    discountAmount := .num 0, discountNote := none, amount := .num 100
    items := [{ productId := "p1", quantity := 1, unitPrice := 100,
                lineTotal := 100, modifiers := [] }]
    createdAt := 0, deletedAt := none }

/-- The customer linked to `exC2Order`, with aggregates matching it exactly. -/
def exC2Customer : Customer :=
  { id := "c1", phone := "9876543210", name := "N", orderCount := 1
    totalSpent := .num 100, lastOrderAt := some 0 }

/-- State with one linked order and consistent customer aggregates. -/
def exC2DB : DB :=
  { products := [], modifiers := [], orders := [exC2Order], customers := [exC2Customer] }

/-- A no-op edit: same (absent) name and phone, discountPercent resent with
its current value 0, no new items. -/
def exC2Req : EditOrderRequest :=
  { customerName := none, customerPhone := none, discountPercent := .num 0
    discountNote := none, newItems := none }

/-- An edit body in which `discountPercent` is absent. -/
def exC4Req : EditOrderRequest :=
  { customerName := none, customerPhone := none, discountPercent := .undef
    discountNote := none, newItems := none }

/-- Creation request carrying a phone that is neither empty nor 10 digits. -/
def exC9Req : CreateOrderRequest :=
  { customerName := some "N", customerPhone := some " 12345 "
    items := some [{ productId := "p1", quantity := .num 1, modifierIds := none }]
    discountPercent := .undef, discountNote := none }

/-- Result of the C9 example creation. -/
def exC9Res : Except ErrResp (DB × Order) := ordersPOST exC1DB exC9Req 0 "o9" "c9"

/-- The state/order pair of the C9 example creation. -/
def exC9Pair : DB × Order := exC9Res.toOption.getD (fallbackDB, fallbackOrder)

/-- Two-order state for the delete/stats examples: one order in range with a
product-cost item, one deleted order. -/
def exStatsDB : DB :=
  { products := [{ id := "p1", name := "A", price := 100, cost := 40,
                   isActive := true, hasModifiers := false }]
    modifiers := [{ id := "m1", name := "Nuts", price := 20, cost := 5,
                    isActive := true }]
    orders :=
      [{ id := "o1", customerName := "N", customerPhone := ""
         customerId := none, subtotal := 240, discountPercent := .num 10
         discountAmount := .num 24, discountNote := some "note"
         amount := .num 216
         items := [{ productId := "p1", quantity := 2, unitPrice := 120,
                     lineTotal := 240
                     modifiers := [{ modifierId := "m1", nameAtTime := "Nuts",
                                     priceAtTime := 20, costAtTime := 5 }] }]
         createdAt := 3, deletedAt := none },
       { id := "o2", customerName := "M", customerPhone := ""
         customerId := none, subtotal := 50, discountPercent := .num 0
         discountAmount := .num 0, discountNote := none, amount := .num 50
         items := [{ productId := "p1", quantity := 1, unitPrice := 50,
                     lineTotal := 50, modifiers := [] }]
         createdAt := 4, deletedAt := some 9 }]
    customers :=
      [{ id := "c1", phone := "9876543210", name := "N", orderCount := 1
         totalSpent := .num 216, lastOrderAt := some 3 }] }

/-- Result of soft-deleting order `o1` of `exStatsDB` at time 7. -/
def exDeleteRes : Except ErrResp DB := orderDELETE exStatsDB "o1" 7

/-- The state after the C5 example delete. -/
def exDeleteDB : DB := exDeleteRes.toOption.getD fallbackDB

/-- State whose only order is already soft-deleted. -/
def exC6DB : DB :=
  { products := [], modifiers := []
    orders := [{ exC2Order with id := "o6", deletedAt := some 2 }]
    customers := [exC2Customer] }

/-- Request editing a product record so that only `cost` changes. -/
def exC10Req : ProductPatchRequest :=
  { name := none, price := .undef, cost := .num 55, hasModifiers := none }

/-- The state after raising the cost of `p1` in `exStatsDB` to 55. -/
def exC10DB : DB := (productPATCH exStatsDB "p1" exC10Req).toOption.getD fallbackDB

/-- Creation request used for the customer-ledger examples: one unit of `p1`
and a well-formed 10-digit phone. -/
def exC3Req : CreateOrderRequest :=
  { customerName := some "Asha", customerPhone := some "9876543210"
    items := some [{ productId := "p1", quantity := .num 1, modifierIds := none }]
    discountPercent := .num 0, discountNote := none }

/-- First C3 creation, from the customer-free catalog state. -/
def exC3Res1 : Except ErrResp (DB × Order) := ordersPOST exC1DB exC3Req 1 "o1" "cA"

/-- The pair produced by the first C3 creation. -/
def exC3Pair1 : DB × Order := exC3Res1.toOption.getD (fallbackDB, fallbackOrder)

/-- Second C3 creation with the same phone, on the state left by the first. -/
def exC3Res2 : Except ErrResp (DB × Order) := ordersPOST exC3Pair1.1 exC3Req 2 "o2" "cB"

/-- The pair produced by the second C3 creation. -/
def exC3Pair2 : DB × Order := exC3Res2.toOption.getD (fallbackDB, fallbackOrder)

/-! Generic list lemmas used throughout the development. -/

/-- Accumulating a mapped quantity with `foldl` is adding the mapped sum. -/
theorem foldl_add_map {α : Type} (f : α → ℚ) (l : List α) (c : ℚ) :
    l.foldl (fun sum x => sum + f x) c = c + (l.map f).sum := by
  induction l generalizing c with
  | nil => simp
  | cons a t ih => simp [ih, add_assoc]

/-- Mapping a function that fixes every member is the identity. -/
theorem map_fixed {α : Type} (f : α → α) (l : List α)
    (h : ∀ x ∈ l, f x = x) : l.map f = l := by
  induction l with
  | nil => rfl
  | cons a t ih =>
    rw [List.map_cons, h a (List.mem_cons_self a t),
      ih (fun x hx => h x (List.mem_cons_of_mem a hx))]

/-- `find?` commutes with a map that does not disturb the predicate. -/
theorem find?_map_pred {α : Type} (f : α → α) (p : α → Bool) (l : List α)
    (hp : ∀ x, p (f x) = p x) :
    (l.map f).find? p = (l.find? p).map f := by
  induction l with
  | nil => rfl
  | cons a t ih =>
    by_cases h : p a
    · rw [List.map_cons, List.find?_cons_of_pos _ (by rw [hp]; exact h),
        List.find?_cons_of_pos _ h, Option.map_some']
    · rw [List.map_cons,
        List.find?_cons_of_neg _ (by rw [hp]; exact h),
        List.find?_cons_of_neg _ h, ih]

/-- `find?` skips a leading segment with no match. -/
theorem find?_append_left_none {α : Type} (p : α → Bool) (l1 l2 : List α)
    (h : ∀ x ∈ l1, p x = false) :
    (l1 ++ l2).find? p = l2.find? p := by
  induction l1 with
  | nil => rfl
  | cons a t ih =>
    rw [List.cons_append,
      List.find?_cons_of_neg _ (by rw [h a (List.mem_cons_self a t)]; exact fun hc => nomatch hc),
      ih (fun x hx => h x (List.mem_cons_of_mem a hx))]

/-- Every item row produced by `buildOrderItems` is built from one of the
normalised input items. -/
theorem buildOrderItems_mem (db : DB) (l : List NormalizedItem)
    (out : List OrderItem) (h : buildOrderItems db l = some out) :
    ∀ i ∈ out, ∃ x ∈ l, buildOrderItem db x = some i := by
  induction l generalizing out with
  | nil =>
    simp only [buildOrderItems, Option.some.injEq] at h
    subst h
    intro i hi
    exact absurd hi (List.not_mem_nil i)
  | cons a t ih =>
    simp only [buildOrderItems] at h
    cases hb : buildOrderItem db a with
    | none => rw [hb] at h; simp at h
    | some x =>
      cases hr : buildOrderItems db t with
      | none => rw [hb, hr] at h; simp at h
      | some xs =>
        rw [hb, hr] at h
        simp only [Option.some.injEq] at h
        subst h
        intro i hi
        rcases List.mem_cons.mp hi with h1 | h2
        · exact ⟨a, List.mem_cons_self a t, by rw [← h1] at hb; exact hb⟩
        · obtain ⟨y, hy, hby⟩ := ih xs hr i h2
          exact ⟨y, List.mem_cons_of_mem a hy, hby⟩

/-- Shape of one built item row: the product is looked up by the stored
product id, the unit price is the product price plus the snapshot modifier
prices, the line total is unit price times quantity, and every snapshot
points back to an active modifier whose current price/cost it froze. -/
theorem buildOrderItem_spec (db : DB) (x : NormalizedItem) (i : OrderItem)
    (h : buildOrderItem db x = some i) :
    ∃ p, findProduct db i.productId = some p ∧
      i.quantity = x.quantity ∧
      i.unitPrice = p.price + (i.modifiers.map (fun m => m.priceAtTime)).sum ∧
      i.lineTotal = i.unitPrice * i.quantity ∧
      ∀ m ∈ i.modifiers, ∃ md, lookupActiveModifier db m.modifierId = some md ∧
        m.priceAtTime = md.price ∧ m.costAtTime = md.cost := by
  unfold buildOrderItem at h
  cases hp : findProduct db x.productId with
  | none => rw [hp] at h; simp at h
  | some p =>
    rw [hp] at h
    simp only [Option.map_some', Option.some.injEq] at h
    subst h
    have hpid : p.id = x.productId := by
      unfold findProduct at hp
      have hb := List.find?_some hp
      exact eq_of_beq hb
    refine ⟨p, ?_, rfl, ?_, rfl, ?_⟩
    · show findProduct db p.id = some p
      rw [hpid]; exact hp
    · show p.price +
        (x.modifierIds.filterMap (lookupActiveModifier db)).foldl
          (fun sum m => sum + m.price) 0 = _
      rw [foldl_add_map, zero_add, List.map_map]
      rfl
    · intro m hm
      obtain ⟨a, ha, rfl⟩ := List.mem_map.mp hm
      obtain ⟨mid, _, hl⟩ := List.mem_filterMap.mp ha
      unfold lookupActiveModifier at hl
      by_cases hmid : mid = ""
      · rw [if_pos hmid] at hl; simp at hl
      · rw [if_neg hmid] at hl
        have hcond := List.find?_some hl
        rw [Bool.and_eq_true] at hcond
        have haid : a.id = mid := eq_of_beq hcond.1
        refine ⟨a, ?_, rfl, rfl⟩
        show lookupActiveModifier db a.id = some a
        unfold lookupActiveModifier
        rw [haid, if_neg hmid]
        exact hl

/-- Shape of a successfully created order row: identifiers and timestamps,
the stored (trimmed, unvalidated) phone, the required name, the origin of the
item rows, the subtotal as the sum of the line totals, and the clamped
discount chain. -/
theorem buildCreateOrder_ok (db : DB) (req : CreateOrderRequest) (now : ℕ)
    (oid : String) (o : Order) (h : buildCreateOrder db req now oid = .ok o) :
    o.id = oid ∧ o.customerId = none ∧ o.deletedAt = none ∧ o.createdAt = now ∧
    o.customerPhone = (req.customerPhone.getD "").trim ∧
    req.customerName = some o.customerName ∧
    (∀ i ∈ o.items, ∃ raw, buildOrderItem db (normalizeItem raw) = some i) ∧
    o.subtotal = (o.items.map (fun i => i.lineTotal)).sum ∧
    ∃ sp : ℚ, 0 ≤ sp ∧ sp ≤ 100 ∧ o.discountPercent = .num sp ∧
      o.discountAmount = .num (o.subtotal * sp / 100) ∧
      o.amount = .num (o.subtotal - o.subtotal * sp / 100) := by
  unfold buildCreateOrder at h
  cases hcn : req.customerName with
  | none => rw [hcn] at h; simp at h
  | some cname =>
    rw [hcn] at h
    try simp only [] at h
    by_cases hce : cname = ""
    · rw [if_pos hce] at h; simp at h
    · rw [if_neg hce] at h
      cases hit : req.items with
      | none => rw [hit] at h; simp at h
      | some rawItems =>
        rw [hit] at h
        try simp only [] at h
        by_cases hre : rawItems.isEmpty
        · rw [if_pos hre] at h; simp at h
        · rw [if_neg hre] at h
          try simp only [] at h
          by_cases hap : allProductsFound db (rawItems.map normalizeItem) = true
          · rw [if_neg (not_not_intro hap)] at h
            cases hbi : buildOrderItems db (rawItems.map normalizeItem) with
            | none => rw [hbi] at h; simp at h
            | some orderItemsData =>
              rw [hbi] at h
              simp only [Except.ok.injEq] at h
              subst h
              refine ⟨rfl, rfl, rfl, rfl, rfl, rfl, ?_, ?_, ?_⟩
              · intro i hi
                obtain ⟨x, hx, hbx⟩ := buildOrderItems_mem db _ _ hbi i hi
                obtain ⟨raw, _, hxr⟩ := List.mem_map.mp hx
                exact ⟨raw, by rw [hxr]; exact hbx⟩
              · show orderItemsData.foldl (fun sum item => sum + item.lineTotal) 0 = _
                rw [foldl_add_map, zero_add]
              · refine ⟨max 0 (min 100 (jsOrElse (jsNumber req.discountPercent) 0)),
                  le_max_left 0 _, ?_, rfl, rfl, rfl⟩
                exact max_le (by norm_num) (min_le_left 100 _)
          · rw [if_pos hap] at h; simp at h

/-- Shape of a successful `POST /api/orders`: the returned order is the one
`buildCreateOrder` produced, and the final state is the appended order plus,
exactly when the stored phone has 10 characters, the customer
reconciliation. -/
theorem ordersPOST_ok (db : DB) (req : CreateOrderRequest) (now : ℕ)
    (oid cid : String) (db' : DB) (o : Order)
    (h : ordersPOST db req now oid cid = .ok (db', o)) :
    buildCreateOrder db req now oid = .ok o ∧
    db' = (if o.customerPhone.length = 10 then
            handleCustomerAsync { db with orders := db.orders ++ [o] } o.id
              o.customerName o.customerPhone o.amount now cid
          else { db with orders := db.orders ++ [o] }) := by
  unfold ordersPOST at h
  cases hb : buildCreateOrder db req now oid with
  | error e => rw [hb] at h; simp at h
  | ok order =>
    rw [hb] at h
    try simp only [] at h
    by_cases hl : order.customerPhone.length = 10
    · rw [if_pos hl] at h
      simp only [Except.ok.injEq, Prod.mk.injEq] at h
      obtain ⟨h1, h2⟩ := h
      subst h2
      exact ⟨rfl, by rw [if_pos hl, ← h1]⟩
    · rw [if_neg hl] at h
      simp only [Except.ok.injEq, Prod.mk.injEq] at h
      obtain ⟨h1, h2⟩ := h
      subst h2
      exact ⟨rfl, by rw [if_neg hl, ← h1]⟩

/-- Decrementing a customer does not touch the order rows. -/
theorem patchDecrementStep_orders (db : DB) (cur : Order) (a p : Bool) :
    (patchDecrementStep db cur a p).orders = db.orders := by
  unfold patchDecrementStep decrementCustomer
  cases cur.customerId with
  | none => rfl
  | some oldId => by_cases ha : a = true <;> by_cases hp : p = true <;> simp [ha, hp]

/-- Decrementing a customer does not touch the product rows either. -/
theorem patchDecrementStep_products (db : DB) (cur : Order) (a p : Bool) :
    (patchDecrementStep db cur a p).products = db.products := by
  unfold patchDecrementStep decrementCustomer
  cases cur.customerId with
  | none => rfl
  | some oldId => by_cases ha : a = true <;> by_cases hp : p = true <;> simp [ha, hp]

/-- Resolving the customer behind the new phone does not touch the orders. -/
theorem patchResolveCustomer_orders (db : DB) (tp tn : String) (fa : JSVal)
    (now : ℕ) (fid : String) :
    (patchResolveCustomer db tp tn fa now fid).2.orders = db.orders := by
  unfold patchResolveCustomer
  by_cases hl : tp.length = 10
  · rw [if_pos hl]
    cases db.customers.find? (fun c => c.phone == tp) <;> rfl
  · rw [if_neg hl]

/-- Resolving the customer does not touch the products. -/
theorem patchResolveCustomer_products (db : DB) (tp tn : String) (fa : JSVal)
    (now : ℕ) (fid : String) :
    (patchResolveCustomer db tp tn fa now fid).2.products = db.products := by
  unfold patchResolveCustomer
  by_cases hl : tp.length = 10
  · rw [if_pos hl]
    cases db.customers.find? (fun c => c.phone == tp) <;> rfl
  · rw [if_neg hl]

/-- Mapping an id/deletedAt-preserving function over the orders keeps, for
every result row, an origin row with the same id and deletion mark. -/
theorem mem_map_preserving (l : List Order) (f : Order → Order)
    (hf : ∀ o, (f o).id = o.id ∧ (f o).deletedAt = o.deletedAt) :
    ∀ o' ∈ l.map f, ∃ o ∈ l, o'.id = o.id ∧ o'.deletedAt = o.deletedAt := by
  intro o' ho'
  obtain ⟨o, ho, rfl⟩ := List.mem_map.mp ho'
  exact ⟨o, ho, (hf o).1, (hf o).2⟩

/-- The item-append step preserves every order's id and deletion mark. -/
theorem patchAppendItems_preserved (db : DB) (orderId : String)
    (nd : List OrderItem) :
    ∀ o' ∈ (patchAppendItems db orderId nd).orders,
      ∃ o ∈ db.orders, o'.id = o.id ∧ o'.deletedAt = o.deletedAt := by
  intro o' ho'
  refine mem_map_preserving db.orders _ ?_ o' ho'
  intro o
  by_cases h : o.id = orderId <;> simp [h]

/-- The final order-update step preserves every order's id and deletion
mark. -/
theorem patchUpdateOrder_preserved (db : DB) (orderId : String) (cur : Order)
    (req : EditOrderRequest) (nd : List OrderItem) (cid : Option String) :
    ∀ o' ∈ (patchUpdateOrder db orderId cur req nd cid).orders,
      ∃ o ∈ db.orders, o'.id = o.id ∧ o'.deletedAt = o.deletedAt := by
  intro o' ho'
  unfold patchUpdateOrder at ho'
  try simp only [] at ho'
  refine mem_map_preserving db.orders _ ?_ o' ho'
  intro o
  by_cases h : o.id = orderId <;> simp [h]

/-- The whole PATCH transaction preserves every order's id and deletion
mark (it can append items and rewrite order fields, never `deletedAt`). -/
theorem patchApplyTx_preserved (db : DB) (orderId : String) (cur : Order)
    (req : EditOrderRequest) (nd : List OrderItem) (now : ℕ) (fid : String) :
    ∀ o' ∈ (patchApplyTx db orderId cur req nd now fid).orders,
      ∃ o ∈ db.orders, o'.id = o.id ∧ o'.deletedAt = o.deletedAt := by
  intro o' ho'
  unfold patchApplyTx at ho'
  try simp only [] at ho'
  obtain ⟨o1, ho1, hid1, hdel1⟩ := patchUpdateOrder_preserved _ _ _ _ _ _ o' ho'
  rw [patchResolveCustomer_orders] at ho1
  obtain ⟨o0, ho0, hid0, hdel0⟩ := patchAppendItems_preserved _ _ _ o1 ho1
  rw [patchDecrementStep_orders] at ho0
  exact ⟨o0, ho0, hid1.trans hid0, hdel1.trans hdel0⟩

/-- Shape of a successful `PATCH /api/orders/[id]`: the target order exists,
is not deleted, the new items processed, and the result is the transaction
body applied to the original state. -/
theorem orderPATCH_ok (db : DB) (orderId : String) (req : EditOrderRequest)
    (now : ℕ) (fid : String) (db' : DB)
    (h : orderPATCH db orderId req now fid = .ok db') :
    ∃ currentOrder newItemsData,
      db.orders.find? (fun o => o.id == orderId) = some currentOrder ∧
      currentOrder.deletedAt = none ∧
      processNewItems db req.newItems = .ok newItemsData ∧
      db' = patchApplyTx db orderId currentOrder req newItemsData now fid := by
  unfold orderPATCH at h
  cases hf : db.orders.find? (fun o => o.id == orderId) with
  | none => rw [hf] at h; simp at h
  | some currentOrder =>
    rw [hf] at h
    try simp only [] at h
    by_cases hd : currentOrder.deletedAt.isSome = true
    · rw [if_pos hd] at h; simp at h
    · rw [if_neg hd] at h
      by_cases hp : patchPhoneInvalid req currentOrder = true
      · rw [if_pos hp] at h; simp at h
      · rw [if_neg hp] at h
        cases hn : processNewItems db req.newItems with
        | error e => rw [hn] at h; simp at h
        | ok newItemsData =>
          rw [hn] at h
          try simp only [] at h
          simp only [Except.ok.injEq] at h
          refine ⟨currentOrder, newItemsData, rfl, ?_, rfl, h.symm⟩
          cases hcd : currentOrder.deletedAt with
          | none => rfl
          | some t => rw [hcd] at hd; simp at hd

/-- After the PATCH transaction, looking the edited order up by id yields its
updated row: appended items, recomputed subtotal, and the recomputed
discount chain. -/
theorem patchApplyTx_updated_order (db : DB) (orderId : String) (cur : Order)
    (req : EditOrderRequest) (nd : List OrderItem) (now : ℕ) (fid : String)
    (hfind : db.orders.find? (fun o => o.id == orderId) = some cur) :
    ∃ o', (patchApplyTx db orderId cur req nd now fid).orders.find?
            (fun o => o.id == orderId) = some o' ∧
      o'.items = cur.items ++ nd ∧
      o'.subtotal = patchNewSubtotal cur nd ∧
      o'.discountPercent = patchSafePercent req.discountPercent cur.discountPercent ∧
      o'.discountAmount = patchNewDiscountAmount cur req nd ∧
      o'.amount = patchNewFinalAmount cur req nd := by
  have hb := List.find?_some hfind
  have hcurid : cur.id = orderId := eq_of_beq hb
  have horders : (patchApplyTx db orderId cur req nd now fid).orders.find?
      (fun o => o.id == orderId)
      = ((db.orders.map (fun o =>
            if o.id = orderId then { o with items := o.items ++ nd } else o)).find?
          (fun o => o.id == orderId)).map
            (fun o =>
              if o.id = orderId then
                { o with
                  customerName := patchTrimmedName req cur
                  customerPhone := patchTrimmedPhone req cur
                  customerId := (patchResolveCustomer
                    (patchAppendItems
                      (patchDecrementStep db cur
                        (jsNeB (patchNewFinalAmount cur req nd) cur.amount)
                        (patchTrimmedPhone req cur ≠ cur.customerPhone))
                      orderId nd)
                    (patchTrimmedPhone req cur) (patchTrimmedName req cur)
                    (patchNewFinalAmount cur req nd) now fid).1
                  subtotal := patchNewSubtotal cur nd
                  discountPercent := patchSafePercent req.discountPercent cur.discountPercent
                  discountAmount := patchNewDiscountAmount cur req nd
                  discountNote :=
                    if jsGtB (patchSafePercent req.discountPercent cur.discountPercent)
                        (.num 0) then
                      match req.discountNote with
                      | some n => some n
                      | none => cur.discountNote
                    else none
                  amount := patchNewFinalAmount cur req nd }
              else o) := by
    unfold patchApplyTx patchUpdateOrder
    try simp only []
    rw [patchResolveCustomer_orders]
    unfold patchAppendItems
    try simp only []
    rw [patchDecrementStep_orders]
    rw [find?_map_pred]
    intro x
    by_cases hx : x.id = orderId <;> simp [hx]
  rw [horders, find?_map_pred _ _ _ (fun x => by by_cases hx : x.id = orderId <;> simp [hx]),
    hfind]
  refine ⟨_, rfl, ?_⟩
  simp [hcurid]

/-- Effect of the reconciliation when a customer with the phone exists: its
aggregates are bumped, its name becomes the submitted one (it is overwritten
only when different, which amounts to the same stored value), other
customers survive untouched, and every order with the given id is linked to
it. -/
theorem handleCustomerAsync_existing (db : DB) (oid nm ph : String)
    (amt : JSVal) (now : ℕ) (fid : String) (c : Customer)
    (hfind : db.customers.find? (fun x => x.phone == ph) = some c) :
    ({ c with orderCount := c.orderCount + 1
              totalSpent := jsAdd c.totalSpent amt
              lastOrderAt := some now
              name := nm } : Customer)
      ∈ (handleCustomerAsync db oid nm ph amt now fid).customers ∧
    (∀ x ∈ db.customers, x.id ≠ c.id →
        x ∈ (handleCustomerAsync db oid nm ph amt now fid).customers) ∧
    (∀ o ∈ db.orders, o.id = oid →
        { o with customerId := some c.id }
          ∈ (handleCustomerAsync db oid nm ph amt now fid).orders) ∧
    (handleCustomerAsync db oid nm ph amt now fid).products = db.products := by
  unfold handleCustomerAsync
  rw [hfind]
  refine ⟨?_, ?_, ?_, by trivial⟩
  · refine List.mem_map.mpr ⟨c, List.mem_of_find?_eq_some hfind, ?_⟩
    by_cases hn : c.name = nm <;> simp [hn]
  · intro x hx hne
    refine List.mem_map.mpr ⟨x, hx, ?_⟩
    simp [hne]
  · intro o ho hid
    refine List.mem_map.mpr ⟨o, ho, ?_⟩
    simp [hid]

/-- Effect of the reconciliation when no customer with the phone exists: a
fresh row is appended with one order and the order amount, and every order
with the given id is linked to it. -/
theorem handleCustomerAsync_new (db : DB) (oid nm ph : String) (amt : JSVal)
    (now : ℕ) (fid : String)
    (hfind : db.customers.find? (fun x => x.phone == ph) = none) :
    (handleCustomerAsync db oid nm ph amt now fid).customers
      = db.customers ++
        [{ id := fid, phone := ph, name := nm, orderCount := 1,
           totalSpent := amt, lastOrderAt := some now }] ∧
    (∀ o ∈ db.orders, o.id = oid →
        { o with customerId := some fid }
          ∈ (handleCustomerAsync db oid nm ph amt now fid).orders) ∧
    (handleCustomerAsync db oid nm ph amt now fid).products = db.products := by
  unfold handleCustomerAsync
  rw [hfind]
  refine ⟨rfl, ?_, by trivial⟩
  intro o ho hid
  refine List.mem_map.mpr ⟨o, ho, ?_⟩
  simp [hid]

/-- Shape of a successful soft delete: only the `deletedAt` of the matching
order rows changes. -/
theorem orderDELETE_ok (db : DB) (oid : String) (now : ℕ) (db' : DB)
    (h : orderDELETE db oid now = .ok db') :
    db' = { db with
            orders := db.orders.map (fun o =>
              if o.id = oid then { o with deletedAt := some now } else o) } := by
  unfold orderDELETE at h
  by_cases ha : db.orders.any (fun o => o.id == oid) = true
  · rw [if_pos ha] at h
    simp only [Except.ok.injEq] at h
    exact h.symm
  · rw [if_neg ha] at h
    simp at h

/-- A PATCH aimed at a soft-deleted order is rejected with 400 before any
write. -/
theorem orderPATCH_deleted (db : DB) (oid : String) (req : EditOrderRequest)
    (now : ℕ) (fid : String) (cur : Order) (t : ℕ)
    (hfind : db.orders.find? (fun o => o.id == oid) = some cur)
    (hdel : cur.deletedAt = some t) :
    orderPATCH db oid req now fid = .error ⟨400, "Cannot edit a deleted order"⟩ := by
  unfold orderPATCH
  rw [hfind]
  try simp only []
  rw [if_pos (by rw [hdel]; rfl)]

/-- A PATCH carrying a digits-stripped phone that is neither empty nor ten
characters long is rejected with 400 before any write. -/
theorem orderPATCH_phone_invalid (db : DB) (oid : String)
    (req : EditOrderRequest) (now : ℕ) (fid : String) (cur : Order)
    (hfind : db.orders.find? (fun o => o.id == oid) = some cur)
    (hdel : cur.deletedAt = none)
    (hp : patchPhoneInvalid req cur = true) :
    orderPATCH db oid req now fid
      = .error ⟨400, "Phone must be exactly 10 digits or empty"⟩ := by
  unfold orderPATCH
  rw [hfind]
  try simp only []
  rw [if_neg (by rw [hdel]; simp), if_pos hp]

/-- A manual customer creation whose trimmed phone is not exactly 10 digit
characters is rejected with 400. -/
theorem customersPOST_phone_invalid (db : DB) (n p : String) (fid : String)
    (hn : n ≠ "") (hp : p ≠ "")
    (hbad : p.trim.length ≠ 10 ∨ isAllDigits p.trim = false) :
    customersPOST db (some n) (some p) fid
      = .error ⟨400, "Phone must be exactly 10 digits"⟩ := by
  unfold customersPOST
  try simp only []
  have hcond : p.trim.length ≠ 10 ∨ ¬ isAllDigits p.trim = true := by
    rcases hbad with h | h
    · exact Or.inl h
    · exact Or.inr (by rw [h]; exact fun hc => nomatch hc)
  rw [if_neg (by push_neg; exact ⟨hn, hp⟩), if_pos hcond]

/-- Every customer row `customersPOST` ever creates carries a 10-character
all-digit phone, and it is the only row added. -/
theorem customersPOST_ok (db : DB) (name phone : Option String) (fid : String)
    (db' : DB) (c : Customer)
    (h : customersPOST db name phone fid = .ok (db', c)) :
    c.phone.length = 10 ∧ isAllDigits c.phone = true ∧
    db'.customers = db.customers ++ [c] ∧ db'.orders = db.orders := by
  unfold customersPOST at h
  cases hname : name with
  | none => rw [hname] at h; simp at h
  | some n =>
    cases hphone : phone with
    | none => rw [hname, hphone] at h; simp at h
    | some p =>
      rw [hname, hphone] at h
      try simp only [] at h
      by_cases he : n = "" ∨ p = ""
      · rw [if_pos he] at h; simp at h
      · rw [if_neg he] at h
        by_cases hv : p.trim.length ≠ 10 ∨ ¬ isAllDigits p.trim = true
        · rw [if_pos hv] at h; simp at h
        · rw [if_neg hv] at h
          push_neg at hv
          by_cases hdup : (db.customers.find? (fun c => c.phone == p.trim)).isSome = true
          · rw [if_pos hdup] at h; simp at h
          · rw [if_neg hdup] at h
            simp only [Except.ok.injEq, Prod.mk.injEq] at h
            obtain ⟨h1, h2⟩ := h
            subst h2
            exact ⟨hv.1, hv.2, by rw [← h1], by rw [← h1]⟩

/-- The nested `+=` cost loop of the stats endpoint computes the sum of the
claim-side per-order costs. -/
theorem statsTotalCost_eq (db : DB) (orders : List Order) :
    statsTotalCost db orders = (orders.map (specOrderCost db)).sum := by
  have hitem : ∀ (items : List OrderItem) (acc : ℚ),
      items.foldl (fun acc2 item =>
        item.modifiers.foldl (fun acc3 m => acc3 + m.costAtTime * item.quantity)
          (acc2 + productCostOf db item.productId * item.quantity)) acc
      = acc + (items.map (specItemCost db)).sum := by
    intro items
    induction items with
    | nil => intro acc; simp
    | cons i t ih =>
      intro acc
      rw [List.foldl_cons, ih, foldl_add_map]
      simp only [List.map_cons, List.sum_cons]
      unfold specItemCost
      ring
  have houter : ∀ (os : List Order) (acc : ℚ),
      os.foldl (fun acc o =>
        o.items.foldl (fun acc2 item =>
          item.modifiers.foldl (fun acc3 m => acc3 + m.costAtTime * item.quantity)
            (acc2 + productCostOf db item.productId * item.quantity)) acc) acc
      = acc + (os.map (specOrderCost db)).sum := by
    intro os
    induction os with
    | nil => intro acc; simp
    | cons o t ih =>
      intro acc
      rw [List.foldl_cons, ih, hitem]
      simp only [List.map_cons, List.sum_cons]
      unfold specOrderCost
      ring
  unfold statsTotalCost
  rw [houter, zero_add]

/-- The revenue reduction is the JS sum of the amounts. -/
theorem foldl_jsAdd_eq_jsSum (orders : List Order) :
    orders.foldl (fun sum o => jsAdd sum o.amount) (.num 0)
      = jsSum (orders.map (fun o => o.amount)) := by
  unfold jsSum
  rw [List.foldl_map]

/-- A `jsAdd` fold never produces `undef`. -/
theorem foldl_jsAdd_ne_undef (l : List JSVal) (acc : JSVal) (ha : acc ≠ .undef) :
    l.foldl jsAdd acc ≠ .undef := by
  induction l generalizing acc with
  | nil => exact ha
  | cons x t ih =>
    rw [List.foldl_cons]
    refine ih _ ?_
    cases acc <;> cases x <;> simp [jsAdd]

/-- Multiplying a JS division by its nonzero real divisor recovers the
dividend, as long as the dividend is a genuine value (number or NaN). -/
theorem jsMul_jsDiv_cancel (v : JSVal) (n : ℚ) (hn : n ≠ 0) (hv : v ≠ .undef) :
    jsMul (jsDiv v (.num n)) (.num n) = v := by
  cases v with
  | undef => exact absurd rfl hv
  | nan => simp [jsDiv, jsMul]
  | num r => simp [jsDiv, jsMul, hn, div_mul_cancel₀]

/-- Patching only a product cost: shape of the successful result, plus the
fact that the row existed. -/
theorem productPATCH_cost_ok (db : DB) (pid : String) (newCost : ℚ) (db' : DB)
    (h : productPATCH db pid
        { name := none, price := .undef, cost := .num newCost,
          hasModifiers := none } = .ok db') :
    db.products.any (fun p => p.id == pid) = true ∧
    db' = { db with products := db.products.map (fun p =>
        if p.id = pid then { p with cost := newCost } else p) } := by
  unfold productPATCH at h
  try simp only [] at h
  split at h
  · simp at h
  · split at h
    · rename_i hcond hany
      simp only [Except.ok.injEq] at h
      subst h
      exact ⟨hany, rfl⟩
    · simp at h

/-- Patching a modifier never touches the product or order rows. -/
theorem modifierPATCH_frame (db : DB) (mid : String) (name : Option String)
    (price cost : JSVal) (db' : DB)
    (h : modifierPATCH db mid name price cost = .ok db') :
    db'.products = db.products ∧ db'.orders = db.orders := by
  unfold modifierPATCH at h
  try simp only [] at h
  split at h
  · simp at h
  · split at h
    · simp only [Except.ok.injEq] at h
      subst h
      exact ⟨rfl, rfl⟩
    · simp at h

/-- The stats summary only reads the product and order tables. -/
theorem statsGET_ext (db1 db2 : DB) (s e : ℕ)
    (hp : db1.products = db2.products) (ho : db1.orders = db2.orders) :
    statsGET db1 s e = statsGET db2 s e := by
  cases db1
  cases db2
  simp only [] at hp ho
  subst hp
  subst ho
  rfl

/-- Reading an untouched product id after a cost patch gives the old cost. -/
theorem productCostOf_patched_other (db : DB) (pid : String) (newCost : ℚ)
    (x : String) (hx : x ≠ pid) :
    productCostOf { db with products := db.products.map (fun p =>
        if p.id = pid then { p with cost := newCost } else p) } x
      = productCostOf db x := by
  unfold productCostOf findProduct
  rw [find?_map_pred _ _ _ (fun p => by by_cases hp : p.id = pid <;> simp [hp])]
  cases hf : db.products.find? (fun p => p.id == x) with
  | none => rfl
  | some q =>
    have hb := List.find?_some hf
    have hq : q.id = x := eq_of_beq hb
    simp only [Option.map_some']
    rw [if_neg (by rw [hq]; exact hx)]

/-- Reading the patched product id after a cost patch gives the new cost. -/
theorem productCostOf_patched_self (db : DB) (pid : String) (newCost : ℚ)
    (hany : db.products.any (fun p => p.id == pid) = true) :
    productCostOf { db with products := db.products.map (fun p =>
        if p.id = pid then { p with cost := newCost } else p) } pid
      = newCost := by
  unfold productCostOf findProduct
  rw [find?_map_pred _ _ _ (fun p => by by_cases hp : p.id = pid <;> simp [hp])]
  cases hf : db.products.find? (fun p => p.id == pid) with
  | none =>
    obtain ⟨q, hq, hpq⟩ := List.any_eq_true.mp hany
    exact absurd hpq (by
      have := List.find?_eq_none.mp hf q hq
      simpa using this)
  | some q =>
    have hb := List.find?_some hf
    have hq : q.id = pid := eq_of_beq hb
    simp only [Option.map_some']
    rw [if_pos hq]

/-- Pointwise-equal functions give equal maps. -/
theorem map_congr_mem {α β : Type} (l : List α) (f g : α → β)
    (h : ∀ x ∈ l, f x = g x) : l.map f = l.map g := by
  induction l with
  | nil => rfl
  | cons a t ih =>
    rw [List.map_cons, List.map_cons, h a (List.mem_cons_self a t),
      ih (fun x hx => h x (List.mem_cons_of_mem a hx))]

/-- Sum of a pointwise rational addition splits. -/
theorem sum_map_add {α : Type} (l : List α) (f g : α → ℚ) :
    (l.map (fun x => f x + g x)).sum = (l.map f).sum + (l.map g).sum := by
  induction l with
  | nil => simp
  | cons a t ih =>
    simp only [List.map_cons, List.sum_cons, ih]
    ring

/-- Sum of a constant multiple factors out. -/
theorem sum_map_mul {α : Type} (l : List α) (d : ℚ) (f : α → ℚ) :
    (l.map (fun x => d * f x)).sum = d * (l.map f).sum := by
  induction l with
  | nil => simp
  | cons a t ih =>
    simp only [List.map_cons, List.sum_cons, ih]
    ring

/-- Guarded per-item contributions sum to the filtered quantity total. -/
theorem sum_if_filter (l : List OrderItem) (pid : String) (d : ℚ) :
    (l.map (fun i => if i.productId = pid then d * i.quantity else 0)).sum
      = d * ((l.filter (fun i => i.productId == pid)).map (fun i => i.quantity)).sum := by
  induction l with
  | nil => simp
  | cons i t ih =>
    by_cases hp : i.productId = pid
    · simp [hp, List.filter_cons, ih, mul_add]
    · simp [hp, List.filter_cons, ih]

/-- Item cost after a product cost patch: the old cost plus the guarded
delta. -/
theorem specItemCost_patched (db : DB) (pid : String) (newCost : ℚ)
    (i : OrderItem)
    (hany : db.products.any (fun p => p.id == pid) = true) :
    specItemCost { db with products := db.products.map (fun p =>
        if p.id = pid then { p with cost := newCost } else p) } i
      = specItemCost db i
        + (if i.productId = pid then (newCost - productCostOf db pid) * i.quantity else 0) := by
  unfold specItemCost
  by_cases hp : i.productId = pid
  · rw [if_pos hp, hp, productCostOf_patched_self db pid newCost hany]
    ring
  · rw [if_neg hp, productCostOf_patched_other db pid newCost _ hp]
    ring

/-- Order cost after a product cost patch: the old cost plus the delta times
the order's matching quantity. -/
theorem specOrderCost_patched (db : DB) (pid : String) (newCost : ℚ)
    (o : Order)
    (hany : db.products.any (fun p => p.id == pid) = true) :
    specOrderCost { db with products := db.products.map (fun p =>
        if p.id = pid then { p with cost := newCost } else p) } o
      = specOrderCost db o
        + (newCost - productCostOf db pid)
          * ((o.items.filter (fun i => i.productId == pid)).map (fun i => i.quantity)).sum := by
  unfold specOrderCost
  rw [map_congr_mem _ _ _ (fun i _ => specItemCost_patched db pid newCost i hany),
    sum_map_add, sum_if_filter]


/-- Recover the `Except`-level success from its decidable option view. -/
theorem except_ok_of_toOption {e : Type} {a : Type} (x : Except e a) (v : a)
    (h : x.toOption = some v) : x = .ok v := by
  cases x with
  | error err => simp [Except.toOption] at h
  | ok w => simp [Except.toOption] at h; rw [h]

/-- C2 (code divergence witness): a no-op edit of the single linked order -
the same 10-digit phone, the discount resent with its current value, no new
items, amount recomputed to the same 100 - still increments the linked
customer: orderCount goes from 1 to 2 and totalSpent from 100 to 200, while
only this one order of amount 100 is linked to the customer. -/
theorem noop_edit_double_counts :
    ((orderPATCH exC2DB "o1" exC2Req 5 "cNew").toOption.map
      (fun db => db.customers.map (fun c => (c.orderCount, c.totalSpent))))
      = some [(2, JSVal.num 200)] ∧
    ((orderPATCH exC2DB "o1" exC2Req 5 "cNew").toOption.map
      (fun db => db.orders.map (fun o => (o.customerId, o.amount))))
      = some [(some "c1", JSVal.num 100)] := by
  with_unfolding_all decide

/-- C4 (code divergence witness): the PATCH clamp is fed
`Number(discountPercent) ?? current`; with the field absent this is NaN,
which the nullish coalescing does not catch and the min/max clamp
propagates, so the edit stores NaN for discountPercent, discountAmount and
amount (and poisons the linked customer totalSpent) instead of falling
back to the stored percent. -/
theorem omitted_discount_percent_nan :
    patchSafePercent JSVal.undef (.num 30) = JSVal.nan ∧
    ((orderPATCH exC2DB "o1" exC4Req 5 "cNew").toOption.map
      (fun db => db.orders.map (fun o => (o.discountPercent, o.discountAmount, o.amount))))
      = some [(JSVal.nan, JSVal.nan, JSVal.nan)] ∧
    ((orderPATCH exC2DB "o1" exC4Req 5 "cNew").toOption.map
      (fun db => db.customers.map (fun c => c.totalSpent)))
      = some [JSVal.nan] := by
  with_unfolding_all decide

/-- C1 (counterexample to the rounding clause): creating an order of
subtotal 1 with a 0.125 percent discount stores discountAmount 1/800
exactly; rounding `subtotal * discountPercent / 100` to a whole currency
unit gives 0, so the stored value is NOT the rounded one. -/
theorem discount_no_round_cex :
    (ordersPOST exC1DB exC1Req 0 "o1" "c1").toOption = some exC1Pair ∧
    exC1Pair.2.subtotal = 1 ∧
    exC1Pair.2.discountPercent = .num (1/8) ∧
    exC1Pair.2.discountAmount = .num (1/800) ∧
    ((round ((1 : ℚ) * ((1 : ℚ)/8) / 100) : ℤ) : ℚ) = 0 ∧
    exC1Pair.2.discountAmount ≠ .num ((round ((1 : ℚ) * ((1 : ℚ)/8) / 100) : ℤ) : ℚ) := by
  with_unfolding_all decide

/-- C8 (counterexample to the integer-coercion clause): a quantity of 2.5 is
normalised to 2.5 itself - at no point does the route coerce it to an
integer - and the built order item carries the fractional quantity (the
INTEGER column then rejects the row at the database layer). -/
theorem quantity_not_integer_cex :
    normalizeQuantity (JSVal.num ((5 : ℚ)/2)) = (5 : ℚ)/2 ∧
    ((5 : ℚ)/2).den ≠ 1 ∧
    ((ordersPOST exC1DB
        { customerName := some "N", customerPhone := none
          items := some [{ productId := "p1", quantity := .num ((5 : ℚ)/2),
                           modifierIds := none }]
          discountPercent := .undef, discountNote := none } 0 "o8" "c8").toOption.map
      (fun r => r.2.items.map (fun i => i.quantity))) = some [(5 : ℚ)/2] := by
  with_unfolding_all decide

/-- C9 (counterexample to the storage clause): `POST /api/orders` runs no
phone validation at all - a five-character phone is stored verbatim
(trimmed) on the created order with a 201, no customer being touched. -/
theorem order_create_stores_bad_phone_cex :
    ((exC9Res).toOption.map (fun r => r.2.customerPhone)) = some "12345" ∧
    "12345" ≠ "" ∧ ("12345" : String).length ≠ 10 ∧
    ((exC9Res).toOption.map (fun r => r.1.customers)) = some [] := by
  with_unfolding_all decide

/-- C1 (amended: the stored discountAmount is exactly
`subtotal * discountPercent / 100`, with no rounding): for every successful
creation, each persisted item has `unitPrice` equal to the current product
price plus the (snapshotted) current prices of its applied modifiers and
`lineTotal = unitPrice * quantity`; the persisted order satisfies
`subtotal = sum of lineTotals`,
`discountAmount = subtotal * discountPercent / 100` and
`amount = subtotal - discountAmount`; the same three order-level equations
hold for the updated order row after every successful edit. -/
theorem order_totals_equations :
    (∀ db req now oid cid db' o,
      ordersPOST db req now oid cid = .ok (db', o) →
      (∀ i ∈ o.items, ∃ p, findProduct db i.productId = some p ∧
          i.unitPrice = p.price + (i.modifiers.map (fun m => m.priceAtTime)).sum ∧
          i.lineTotal = i.unitPrice * i.quantity ∧
          ∀ m ∈ i.modifiers, ∃ md, lookupActiveModifier db m.modifierId = some md ∧
            m.priceAtTime = md.price) ∧
        o.subtotal = (o.items.map (fun i => i.lineTotal)).sum ∧
        o.discountAmount = jsDiv (jsMul (.num o.subtotal) o.discountPercent) (.num 100) ∧
        o.amount = jsSub (.num o.subtotal) o.discountAmount) ∧
    (∀ db oid req now fid db' o',
      orderPATCH db oid req now fid = .ok db' →
      db'.orders.find? (fun x => x.id == oid) = some o' →
      o'.subtotal = (o'.items.map (fun i => i.lineTotal)).sum ∧
      o'.discountAmount = jsDiv (jsMul (.num o'.subtotal) o'.discountPercent) (.num 100) ∧
      o'.amount = jsSub (.num o'.subtotal) o'.discountAmount) := by
  constructor
  · intro db req now oid cid db' o h
    obtain ⟨hb, -⟩ := ordersPOST_ok db req now oid cid db' o h
    obtain ⟨-, -, -, -, -, -, hitems, hsub, sp, -, -, hdp, hda, ham⟩ :=
      buildCreateOrder_ok db req now oid o hb
    refine ⟨?_, hsub, ?_, ?_⟩
    · intro i hi
      obtain ⟨raw, hbo⟩ := hitems i hi
      obtain ⟨p, hp, -, hup, hlt, hmods⟩ := buildOrderItem_spec db _ i hbo
      exact ⟨p, hp, hup, hlt, fun m hm =>
        (hmods m hm).imp (fun md hmd => ⟨hmd.1, hmd.2.1⟩)⟩
    · rw [hda, hdp]
      simp only [jsMul, jsDiv]
      rw [if_neg (show (100 : ℚ) ≠ 0 by norm_num)]
    · rw [ham, hda]
      simp only [jsSub]
  · intro db oid req now fid db' o' hpatch hfind'
    obtain ⟨cur, nd, hfind, -, -, hdb'⟩ := orderPATCH_ok db oid req now fid db' hpatch
    subst hdb'
    obtain ⟨o2, hfind2, hitems, hsub, hdp, hda, ham⟩ :=
      patchApplyTx_updated_order db oid cur req nd now fid hfind
    rw [hfind2] at hfind'
    injection hfind' with he
    subst he
    refine ⟨?_, ?_, ?_⟩
    · rw [hsub, hitems, List.map_append, List.sum_append]
      unfold patchNewSubtotal
      rw [foldl_add_map, foldl_add_map, zero_add, zero_add]
    · rw [hda, hsub, hdp]
      rfl
    · rw [ham, hsub, hda]
      rfl

/-- C8 (amended: the quantity is guaranteed to be at least 1 and defaults to
1 when the field is missing, non-numeric or non-positive, but it is passed
through unrounded rather than coerced to an integer): normalisation bounds,
the default cases, pass-through above 1, and every persisted item of a
successful creation having quantity at least 1. -/
theorem quantity_normalization :
    (∀ v : JSVal, 1 ≤ normalizeQuantity v) ∧
    normalizeQuantity .undef = 1 ∧ normalizeQuantity .nan = 1 ∧
    normalizeQuantity (.num 0) = 1 ∧
    (∀ q : ℚ, q ≤ 0 → normalizeQuantity (.num q) = 1) ∧
    (∀ q : ℚ, 1 ≤ q → normalizeQuantity (.num q) = q) ∧
    (∀ db req now oid cid db' o,
      ordersPOST db req now oid cid = .ok (db', o) →
      ∀ i ∈ o.items, 1 ≤ i.quantity) := by
  have h1 : ∀ v : JSVal, 1 ≤ normalizeQuantity v := fun v => le_max_left 1 _
  refine ⟨h1, rfl, rfl, ?_, ?_, ?_, ?_⟩
  · show max 1 (if (0 : ℚ) = 0 then 1 else 0) = 1
    norm_num
  · intro q hq
    show max 1 (if q = 0 then 1 else q) = 1
    by_cases h0 : q = 0
    · rw [if_pos h0]; norm_num
    · rw [if_neg h0]; exact max_eq_left (by linarith)
  · intro q hq
    show max 1 (if q = 0 then 1 else q) = q
    rw [if_neg (by linarith)]
    exact max_eq_right hq
  · intro db req now oid cid db' o h i hi
    obtain ⟨hb, -⟩ := ordersPOST_ok db req now oid cid db' o h
    obtain ⟨-, -, -, -, -, -, hitems, -, -⟩ := buildCreateOrder_ok db req now oid o hb
    obtain ⟨raw, hbo⟩ := hitems i hi
    obtain ⟨p, -, hq, -⟩ := buildOrderItem_spec db _ i hbo
    rw [hq]
    exact h1 raw.quantity

/-- C9 (amended: the customers endpoint and the order edit endpoint reject a
phone that does not normalise to exactly 10 digits with 400, but order
creation runs no phone validation: it stores the trimmed phone verbatim on
the order and merely skips the customer reconciliation unless the phone has
exactly 10 characters). -/
theorem phone_validation :
    (∀ db n p fid, n ≠ "" → p ≠ "" →
      (p.trim.length ≠ 10 ∨ isAllDigits p.trim = false) →
      customersPOST db (some n) (some p) fid
        = .error ⟨400, "Phone must be exactly 10 digits"⟩) ∧
    (∀ db oid req now fid cur,
      db.orders.find? (fun o => o.id == oid) = some cur →
      cur.deletedAt = none →
      patchPhoneInvalid req cur = true →
      orderPATCH db oid req now fid
        = .error ⟨400, "Phone must be exactly 10 digits or empty"⟩) ∧
    (∀ db req now oid cid db' o,
      ordersPOST db req now oid cid = .ok (db', o) →
      o.customerPhone = (req.customerPhone.getD "").trim ∧
      (o.customerPhone.length ≠ 10 → db'.customers = db.customers)) := by
  refine ⟨?_, ?_, ?_⟩
  · intro db n p fid hn hp hbad
    exact customersPOST_phone_invalid db n p fid hn hp hbad
  · intro db oid req now fid cur hfind hdel hp
    exact orderPATCH_phone_invalid db oid req now fid cur hfind hdel hp
  · intro db req now oid cid db' o h
    obtain ⟨hb, hdb'⟩ := ordersPOST_ok db req now oid cid db' o h
    obtain ⟨-, -, -, -, hphone, -, -, -, -⟩ := buildCreateOrder_ok db req now oid o hb
    refine ⟨hphone, fun hlen => ?_⟩
    rw [if_neg hlen] at hdb'
    subst hdb'
    rfl

/-- An order passing the list where-clause is not soft-deleted. -/
theorem orderMatchesWhere_not_deleted (p : OrderListParams) (o : Order)
    (h : orderMatchesWhere p o = true) : o.deletedAt = none := by
  unfold orderMatchesWhere at h
  simp only [Bool.and_eq_true] at h
  exact Option.isNone_iff_eq_none.mp h.1.1.1.1.1

/-- An order aggregated by the stats endpoint is not soft-deleted. -/
theorem statsOrders_not_deleted (db : DB) (s e : ℕ) (o : Order)
    (h : o ∈ statsOrders db s e) : o.deletedAt = none := by
  unfold statsOrders at h
  have hp := List.of_mem_filter h
  simp only [Bool.and_eq_true] at hp
  exact Option.isNone_iff_eq_none.mp hp.1.1

/-- C5: soft-deleting an order only sets its `deletedAt`: the order row (and
with it all its item and snapshot rows) survives with every other field
unchanged, other orders are untouched, the customer, product and modifier
tables are untouched, and the deleted order no longer matches the order-list
where-clause or the stats order set. -/
theorem soft_delete_frame :
    ∀ db oid now db', orderDELETE db oid now = .ok db' →
      (∀ o ∈ db.orders, o.id ≠ oid → o ∈ db'.orders) ∧
      (∀ o ∈ db.orders, o.id = oid →
        ({ o with deletedAt := some now } : Order) ∈ db'.orders) ∧
      db'.customers = db.customers ∧ db'.products = db.products ∧
      db'.modifiers = db.modifiers ∧
      (∀ p o', o' ∈ ordersGET db' p → o'.id ≠ oid) ∧
      (∀ s e o', o' ∈ statsOrders db' s e → o'.id ≠ oid) := by
  intro db oid now db' h
  have hdb' := orderDELETE_ok db oid now db' h
  subst hdb'
  have hdeleted : ∀ o' ∈ (db.orders.map (fun o =>
      if o.id = oid then { o with deletedAt := some now } else o)),
      o'.id = oid → o'.deletedAt = some now := by
    intro o' ho' heq
    obtain ⟨o, ho, hf⟩ := List.mem_map.mp ho'
    by_cases hid : o.id = oid
    · rw [if_pos hid] at hf
      rw [← hf]
    · rw [if_neg hid] at hf
      rw [← hf] at heq
      exact absurd heq hid
  refine ⟨?_, ?_, rfl, rfl, rfl, ?_, ?_⟩
  · intro o ho hne
    exact List.mem_map.mpr ⟨o, ho, if_neg hne⟩
  · intro o ho heq
    exact List.mem_map.mpr ⟨o, ho, if_pos heq⟩
  · intro p o' ho' heq
    have hmem := List.mem_of_mem_filter ho'
    have hmw := List.of_mem_filter ho'
    have h1 := orderMatchesWhere_not_deleted p o' hmw
    rw [hdeleted o' hmem heq] at h1
    exact Option.noConfusion h1
  · intro s e o' ho' heq
    have hmem := List.mem_of_mem_filter ho'
    have h1 := statsOrders_not_deleted _ s e o' ho'
    rw [hdeleted o' hmem heq] at h1
    exact Option.noConfusion h1

/-- C6: an edit aimed at a soft-deleted order fails with a 400 validation
error (the model carries no state on the error path, so nothing changes);
moreover no exposed operation un-deletes: a successful edit preserves every
order's `deletedAt` verbatim, and after a delete any order row without a
deletion mark already existed unchanged before the call. -/
theorem deleted_order_edit_rejected :
    (∀ db oid req now fid cur t,
      db.orders.find? (fun o => o.id == oid) = some cur →
      cur.deletedAt = some t →
      orderPATCH db oid req now fid
        = .error ⟨400, "Cannot edit a deleted order"⟩) ∧
    (∀ db oid req now fid db',
      orderPATCH db oid req now fid = .ok db' →
      ∀ o' ∈ db'.orders, ∃ o ∈ db.orders, o'.id = o.id ∧ o'.deletedAt = o.deletedAt) ∧
    (∀ db oid now db',
      orderDELETE db oid now = .ok db' →
      ∀ o' ∈ db'.orders, o'.deletedAt = none → o' ∈ db.orders) := by
  refine ⟨?_, ?_, ?_⟩
  · intro db oid req now fid cur t hfind hdel
    exact orderPATCH_deleted db oid req now fid cur t hfind hdel
  · intro db oid req now fid db' h o' ho'
    obtain ⟨cur, nd, hfind, -, -, hdb'⟩ := orderPATCH_ok db oid req now fid db' h
    subst hdb'
    exact patchApplyTx_preserved db oid cur req nd now fid o' ho'
  · intro db oid now db' h o' ho' hnone
    have hdb' := orderDELETE_ok db oid now db' h
    subst hdb'
    obtain ⟨o, ho, hf⟩ := List.mem_map.mp ho'
    by_cases hid : o.id = oid
    · rw [if_pos hid] at hf
      rw [← hf] at hnone
      exact Option.noConfusion hnone
    · rw [if_neg hid] at hf
      rw [← hf]
      exact ho

/-- Average times count recovers revenue when the count is positive. -/
theorem avg_mul_rev (rev : JSVal) (n : ℕ) (hpos : 0 < n) (hrev : rev ≠ .undef) :
    jsMul (if 0 < n then jsDiv rev (.num (n : ℚ)) else .num 0) (.num (n : ℚ))
      = rev := by
  rw [if_pos hpos]
  refine jsMul_jsDiv_cancel rev _ ?_ hrev
  exact_mod_cast Nat.pos_iff_ne_zero.mp hpos

/-- Margin times revenue is profit times 100 when the revenue is a positive
number. -/
theorem margin_mul_profit (rev : JSVal) (cost : ℚ)
    (htrue : jsGtB rev (.num 0) = true) :
    jsMul
      (if jsGtB rev (.num 0) then
        jsMul (jsDiv (jsSub rev (.num cost)) rev) (.num 100)
      else .num 0) rev
      = jsMul (jsSub rev (.num cost)) (.num 100) := by
  cases rev with
  | undef => simp [jsGtB] at htrue
  | nan => simp [jsGtB] at htrue
  | num r =>
    have hr : 0 < r := by simpa [jsGtB] using htrue
    rw [if_pos htrue]
    simp only [jsSub, jsDiv, jsMul]
    rw [if_neg (ne_of_gt hr)]
    simp only [jsMul]
    congr 1
    field_simp

/-- C7: the stats summary is computed over exactly the non-deleted orders in
the inclusive date range; totalRevenue is the (JS) sum of their amounts,
totalCost sums current product cost times quantity plus frozen modifier cost
times quantity over all items, totalProfit is revenue minus cost,
avgOrderValue is revenue over order count with 0 for an empty range, and
profitMargin is profit over revenue times 100 with 0 whenever revenue is not
positive - the zero guards avoiding both divisions. -/
theorem stats_summary_formulas :
    ∀ db s e,
      (statsGET db s e).totalRevenue
        = jsSum ((statsOrders db s e).map (fun o => o.amount)) ∧
      (statsGET db s e).totalOrders = (statsOrders db s e).length ∧
      (statsGET db s e).totalCost = ((statsOrders db s e).map (specOrderCost db)).sum ∧
      (statsGET db s e).totalProfit
        = jsSub (statsGET db s e).totalRevenue (.num (statsGET db s e).totalCost) ∧
      ((statsOrders db s e).length = 0 → (statsGET db s e).avgOrderValue = .num 0) ∧
      (0 < (statsOrders db s e).length →
        jsMul (statsGET db s e).avgOrderValue
          (.num ((statsOrders db s e).length : ℚ))
          = (statsGET db s e).totalRevenue) ∧
      (jsGtB (statsGET db s e).totalRevenue (.num 0) = false →
        (statsGET db s e).profitMargin = .num 0) ∧
      (jsGtB (statsGET db s e).totalRevenue (.num 0) = true →
        jsMul (statsGET db s e).profitMargin (statsGET db s e).totalRevenue
          = jsMul (statsGET db s e).totalProfit (.num 100)) ∧
      (∀ o, o ∈ statsOrders db s e ↔
        o ∈ db.orders ∧ o.deletedAt = none ∧ s ≤ o.createdAt ∧ o.createdAt ≤ e) := by
  intro db s e
  refine ⟨?_, rfl, ?_, rfl, ?_, ?_, ?_, ?_, ?_⟩
  · exact foldl_jsAdd_eq_jsSum (statsOrders db s e)
  · exact statsTotalCost_eq db (statsOrders db s e)
  · intro h0
    show (if 0 < (statsOrders db s e).length then _ else JSVal.num 0) = JSVal.num 0
    rw [h0]
    norm_num
  · intro hpos
    have hrev : (statsOrders db s e).foldl (fun sum o => jsAdd sum o.amount) (.num 0)
        ≠ .undef := by
      rw [foldl_jsAdd_eq_jsSum]
      exact foldl_jsAdd_ne_undef _ _ (fun hc => nomatch hc)
    exact avg_mul_rev _ _ hpos hrev
  · intro hfalse
    have hfalse2 : jsGtB ((statsOrders db s e).foldl
        (fun sum o => jsAdd sum o.amount) (.num 0)) (.num 0) = false := hfalse
    show (if jsGtB ((statsOrders db s e).foldl (fun sum o => jsAdd sum o.amount)
        (.num 0)) (.num 0) = true then _ else JSVal.num 0) = JSVal.num 0
    rw [if_neg (by rw [hfalse2]; exact fun hc => nomatch hc)]
  · intro htrue
    exact margin_mul_profit _ _ htrue
  · intro o
    unfold statsOrders
    rw [List.mem_filter]
    simp [and_assoc, Option.isNone_iff_eq_none]

/-- C10: the stats cost loop reads `item.product.cost` from the CURRENT
product row while modifier costs come from the frozen `costAtTime`
snapshot: patching a product's cost shifts totalCost for any (also past)
date range by the cost delta times the quantity of that product sold in the
range, leaving revenue and order counts untouched (totalProfit then moves
by the same delta), whereas patching a modifier's cost leaves the whole
stats summary unchanged. -/
theorem stats_use_current_product_cost :
    (∀ db pid newCost db' s e,
      productPATCH db pid
          { name := none, price := .undef, cost := .num newCost,
            hasModifiers := none } = .ok db' →
      db'.orders = db.orders ∧
      (statsGET db' s e).totalRevenue = (statsGET db s e).totalRevenue ∧
      (statsGET db' s e).totalOrders = (statsGET db s e).totalOrders ∧
      (statsGET db' s e).totalCost = (statsGET db s e).totalCost
        + (newCost - productCostOf db pid) * soldQuantity db pid s e ∧
      (statsGET db' s e).totalProfit
        = jsSub (statsGET db s e).totalRevenue (.num ((statsGET db' s e).totalCost))) ∧
    (∀ db mid name price cost db' s e,
      modifierPATCH db mid name price cost = .ok db' →
      statsGET db' s e = statsGET db s e) := by
  constructor
  · intro db pid newCost db' s e h
    obtain ⟨hany, hdb'⟩ := productPATCH_cost_ok db pid newCost db' h
    subst hdb'
    refine ⟨rfl, rfl, rfl, ?_, rfl⟩
    show statsTotalCost _ (statsOrders _ s e) = statsTotalCost db (statsOrders db s e)
      + (newCost - productCostOf db pid) * soldQuantity db pid s e
    have hso : statsOrders { db with products := db.products.map (fun p =>
        if p.id = pid then { p with cost := newCost } else p) } s e
        = statsOrders db s e := rfl
    rw [hso, statsTotalCost_eq, statsTotalCost_eq,
      map_congr_mem _ _ _ (fun o _ => specOrderCost_patched db pid newCost o hany),
      sum_map_add, sum_map_mul]
    rfl
  · intro db mid name price cost db' s e h
    obtain ⟨hp, ho⟩ := modifierPATCH_frame db mid name price cost db' h
    exact statsGET_ext db' db s e hp ho

/-- Customer-table shape of the reconciliation in the found case. -/
theorem handleCustomerAsync_existing_customers (db : DB) (oid nm ph : String)
    (amt : JSVal) (now : ℕ) (fid : String) (c : Customer)
    (hfind : db.customers.find? (fun x => x.phone == ph) = some c) :
    (handleCustomerAsync db oid nm ph amt now fid).customers
      = db.customers.map (fun x =>
          if x.id = c.id then
            { x with orderCount := x.orderCount + 1
                     totalSpent := jsAdd x.totalSpent amt
                     lastOrderAt := some now
                     name := if c.name ≠ nm then nm else c.name }
          else x) := by
  unfold handleCustomerAsync
  rw [hfind]

/-- C3: after a creation whose stored phone has 10 characters, the
reconciliation increments an existing customer with that phone (orderCount
plus one, totalSpent plus the order amount, lastOrderAt set to now, the name
becoming the submitted one) and links the order to it; with no such
customer a fresh row (orderCount 1, totalSpent the amount) is appended and
linked; consequently two creations with the same 10-character phone against
a state with no such customer leave exactly one matching customer row, with
orderCount 2 and totalSpent the sum of the two amounts. -/
theorem customer_ledger_reconciliation :
    (∀ db req now oid cid db' o c,
      ordersPOST db req now oid cid = .ok (db', o) →
      o.customerPhone.length = 10 →
      db.customers.find? (fun x => x.phone == o.customerPhone) = some c →
      (∃ c' ∈ db'.customers, c'.id = c.id ∧ c'.orderCount = c.orderCount + 1 ∧
        c'.totalSpent = jsAdd c.totalSpent o.amount ∧ c'.lastOrderAt = some now ∧
        c'.name = o.customerName) ∧
      (∀ x ∈ db.customers, x.id ≠ c.id → x ∈ db'.customers) ∧
      (∃ o' ∈ db'.orders, o'.id = oid ∧ o'.customerId = some c.id)) ∧
    (∀ db req now oid cid db' o,
      ordersPOST db req now oid cid = .ok (db', o) →
      o.customerPhone.length = 10 →
      db.customers.find? (fun x => x.phone == o.customerPhone) = none →
      db'.customers = db.customers ++
        [{ id := cid, phone := o.customerPhone, name := o.customerName,
           orderCount := 1, totalSpent := o.amount, lastOrderAt := some now }] ∧
      (∃ o' ∈ db'.orders, o'.id = oid ∧ o'.customerId = some cid)) ∧
    (∀ db req1 req2 now1 now2 oid1 oid2 cid1 cid2 db1 db2 o1 o2,
      ordersPOST db req1 now1 oid1 cid1 = .ok (db1, o1) →
      ordersPOST db1 req2 now2 oid2 cid2 = .ok (db2, o2) →
      o1.customerPhone.length = 10 →
      o2.customerPhone = o1.customerPhone →
      (∀ x ∈ db.customers, x.phone ≠ o1.customerPhone) →
      (∀ x ∈ db.customers, x.id ≠ cid1) →
      ∃ c, db2.customers.filter (fun x => x.phone == o1.customerPhone) = [c] ∧
        c.orderCount = 2 ∧ c.totalSpent = jsAdd o1.amount o2.amount) := by
  refine ⟨?_, ?_, ?_⟩
  · intro db req now oid cid db' o c hpost hlen hfind
    obtain ⟨hb, hdb'⟩ := ordersPOST_ok db req now oid cid db' o hpost
    obtain ⟨hid, -, -, -, -, -, -, -, -⟩ := buildCreateOrder_ok db req now oid o hb
    rw [if_pos hlen] at hdb'
    subst hdb'
    have hH := handleCustomerAsync_existing
      { db with orders := db.orders ++ [o] } o.id o.customerName o.customerPhone
      o.amount now cid c hfind
    refine ⟨⟨_, hH.1, rfl, rfl, rfl, rfl, rfl⟩, ?_, ?_⟩
    · exact fun x hx hne => hH.2.1 x hx hne
    · have ho1 : o ∈ ({ db with orders := db.orders ++ [o] } : DB).orders :=
        List.mem_append.mpr (Or.inr (List.mem_singleton.mpr rfl))
      exact ⟨{ o with customerId := some c.id }, hH.2.2.1 o ho1 rfl, hid, rfl⟩
  · intro db req now oid cid db' o hpost hlen hfind
    obtain ⟨hb, hdb'⟩ := ordersPOST_ok db req now oid cid db' o hpost
    obtain ⟨hid, -, -, -, -, -, -, -, -⟩ := buildCreateOrder_ok db req now oid o hb
    rw [if_pos hlen] at hdb'
    subst hdb'
    have hH := handleCustomerAsync_new
      { db with orders := db.orders ++ [o] } o.id o.customerName o.customerPhone
      o.amount now cid hfind
    refine ⟨hH.1, ?_⟩
    have ho1 : o ∈ ({ db with orders := db.orders ++ [o] } : DB).orders :=
      List.mem_append.mpr (Or.inr (List.mem_singleton.mpr rfl))
    exact ⟨{ o with customerId := some cid }, hH.2.1 o ho1 rfl, hid, rfl⟩
  · intro db req1 req2 now1 now2 oid1 oid2 cid1 cid2 db1 db2 o1 o2
      hpost1 hpost2 hlen hph2 hnophone hnoid
    have hfind1 : db.customers.find? (fun x => x.phone == o1.customerPhone) = none :=
      List.find?_eq_none.mpr (fun x hx => by simpa using hnophone x hx)
    obtain ⟨hb1, hdb1⟩ := ordersPOST_ok db req1 now1 oid1 cid1 db1 o1 hpost1
    rw [if_pos hlen] at hdb1
    have hnew := handleCustomerAsync_new { db with orders := db.orders ++ [o1] }
      o1.id o1.customerName o1.customerPhone o1.amount now1 cid1 hfind1
    have hc1 : db1.customers = db.customers ++
        [{ id := cid1, phone := o1.customerPhone, name := o1.customerName,
           orderCount := 1, totalSpent := o1.amount, lastOrderAt := some now1 }] := by
      rw [hdb1]
      exact hnew.1
    obtain ⟨hb2, hdb2⟩ := ordersPOST_ok db1 req2 now2 oid2 cid2 db2 o2 hpost2
    rw [if_pos (by rw [hph2]; exact hlen)] at hdb2
    have hfind2 : ({ db1 with orders := db1.orders ++ [o2] } : DB).customers.find?
        (fun x => x.phone == o2.customerPhone)
        = some { id := cid1, phone := o1.customerPhone, name := o1.customerName,
                 orderCount := 1, totalSpent := o1.amount, lastOrderAt := some now1 } := by
      show db1.customers.find? (fun x => x.phone == o2.customerPhone) = _
      rw [hc1, hph2,
        find?_append_left_none _ _ _ (fun x hx => by simpa using hnophone x hx),
        List.find?_cons_of_pos _ (by simp)]
    have hcust2 := handleCustomerAsync_existing_customers
      { db1 with orders := db1.orders ++ [o2] } o2.id o2.customerName
      o2.customerPhone o2.amount now2 cid2 _ hfind2
    have hdb2c : db2.customers
        = ((db.customers ++
            [{ id := cid1, phone := o1.customerPhone, name := o1.customerName,
               orderCount := 1, totalSpent := o1.amount,
               lastOrderAt := some now1 }]) : List Customer).map
            (fun (x : Customer) =>
            if x.id = cid1 then
              { x with orderCount := x.orderCount + 1
                       totalSpent := jsAdd x.totalSpent o2.amount
                       lastOrderAt := some now2
                       name := if o1.customerName ≠ o2.customerName then
                           o2.customerName
                         else o1.customerName }
            else x) := by
      rw [hdb2, hcust2]
      show db1.customers.map _ = _
      rw [hc1]
    have hmapold : (db.customers).map (fun (x : Customer) =>
        if x.id = cid1 then
          { x with orderCount := x.orderCount + 1
                   totalSpent := jsAdd x.totalSpent o2.amount
                   lastOrderAt := some now2
                   name := if o1.customerName ≠ o2.customerName then
                       o2.customerName
                     else o1.customerName }
        else x) = db.customers :=
      map_fixed _ _ (fun x hx => if_neg (hnoid x hx))
    refine ⟨{ id := cid1, phone := o1.customerPhone,
              name := if o1.customerName ≠ o2.customerName then o2.customerName
                else o1.customerName,
              orderCount := 1 + 1,
              totalSpent := jsAdd o1.amount o2.amount,
              lastOrderAt := some now2 }, ?_, by norm_num, rfl⟩
    rw [hdb2c, List.map_append, hmapold, List.filter_append,
      List.filter_eq_nil_iff.mpr (fun a ha => by simpa using hnophone a ha)]
    simp

/-- Witness for the order-totals theorem at a concrete creation. -/
theorem order_totals_equations_witness :
    ordersPOST exC1DB exC1Req 0 "o1" "c1" = .ok (exC1Pair.1, exC1Pair.2) ∧
    exC1Pair.2.subtotal = (exC1Pair.2.items.map (fun i => i.lineTotal)).sum ∧
    exC1Pair.2.amount = jsSub (.num exC1Pair.2.subtotal) exC1Pair.2.discountAmount := by
  have h : ordersPOST exC1DB exC1Req 0 "o1" "c1" = .ok (exC1Pair.1, exC1Pair.2) :=
    except_ok_of_toOption _ _ (by with_unfolding_all decide)
  have hm := order_totals_equations.1 exC1DB exC1Req 0 "o1" "c1"
    exC1Pair.1 exC1Pair.2 h
  exact ⟨h, hm.2.1, hm.2.2.2⟩

/-- Witness for the ledger theorem: two concrete creations with the same
10-digit phone leave one customer with orderCount 2 and the summed spend. -/
theorem customer_ledger_reconciliation_witness :
    ordersPOST exC1DB exC3Req 1 "o1" "cA" = .ok (exC3Pair1.1, exC3Pair1.2) ∧
    ordersPOST exC3Pair1.1 exC3Req 2 "o2" "cB" = .ok (exC3Pair2.1, exC3Pair2.2) ∧
    ∃ c, exC3Pair2.1.customers.filter
        (fun x => x.phone == exC3Pair1.2.customerPhone) = [c] ∧
      c.orderCount = 2 ∧
      c.totalSpent = jsAdd exC3Pair1.2.amount exC3Pair2.2.amount := by
  have h1 : ordersPOST exC1DB exC3Req 1 "o1" "cA" = .ok (exC3Pair1.1, exC3Pair1.2) :=
    except_ok_of_toOption _ _ (by with_unfolding_all decide)
  have h2 : ordersPOST exC3Pair1.1 exC3Req 2 "o2" "cB" = .ok (exC3Pair2.1, exC3Pair2.2) :=
    except_ok_of_toOption _ _ (by with_unfolding_all decide)
  refine ⟨h1, h2, customer_ledger_reconciliation.2.2 exC1DB exC3Req exC3Req 1 2
    "o1" "o2" "cA" "cB" exC3Pair1.1 exC3Pair2.1 exC3Pair1.2 exC3Pair2.2 h1 h2
    ?_ ?_ ?_ ?_⟩
  · with_unfolding_all decide
  · with_unfolding_all decide
  · with_unfolding_all decide
  · with_unfolding_all decide

/-- Witness for the soft-delete frame theorem at a concrete delete. -/
theorem soft_delete_frame_witness :
    orderDELETE exStatsDB "o1" 7 = .ok exDeleteDB ∧
    exDeleteDB.customers = exStatsDB.customers ∧
    (∀ s e o', o' ∈ statsOrders exDeleteDB s e → o'.id ≠ "o1") := by
  have h : orderDELETE exStatsDB "o1" 7 = .ok exDeleteDB :=
    except_ok_of_toOption _ _ (by with_unfolding_all decide)
  have hm := soft_delete_frame exStatsDB "o1" 7 exDeleteDB h
  exact ⟨h, hm.2.2.1, hm.2.2.2.2.2.2⟩

/-- Witness for the deleted-order rejection theorem at a concrete state. -/
theorem deleted_order_edit_rejected_witness :
    exC6DB.orders.find? (fun o => o.id == "o6")
      = some ({ exC2Order with id := "o6", deletedAt := some 2 }) ∧
    orderPATCH exC6DB "o6" exC2Req 9 "cX"
      = .error ⟨400, "Cannot edit a deleted order"⟩ := by
  have hfind : exC6DB.orders.find? (fun o => o.id == "o6")
      = some ({ exC2Order with id := "o6", deletedAt := some 2 }) := by
    with_unfolding_all decide
  exact ⟨hfind,
    deleted_order_edit_rejected.1 exC6DB "o6" exC2Req 9 "cX" _ 2 hfind rfl⟩

/-- Witness for the stats formulas theorem at a concrete state with one
ranged order. -/
theorem stats_summary_formulas_witness :
    0 < (statsOrders exStatsDB 0 5).length ∧
    jsMul (statsGET exStatsDB 0 5).avgOrderValue
      (.num ((statsOrders exStatsDB 0 5).length : ℚ))
      = (statsGET exStatsDB 0 5).totalRevenue ∧
    jsGtB (statsGET exStatsDB 0 5).totalRevenue (.num 0) = true ∧
    jsMul (statsGET exStatsDB 0 5).profitMargin (statsGET exStatsDB 0 5).totalRevenue
      = jsMul (statsGET exStatsDB 0 5).totalProfit (.num 100) := by
  have hm := stats_summary_formulas exStatsDB 0 5
  have hpos : 0 < (statsOrders exStatsDB 0 5).length := by
    with_unfolding_all decide
  have hgt : jsGtB (statsGET exStatsDB 0 5).totalRevenue (.num 0) = true := by
    with_unfolding_all decide
  exact ⟨hpos, hm.2.2.2.2.2.1 hpos, hgt, hm.2.2.2.2.2.2.2.1 hgt⟩

/-- Witness for the quantity-normalisation theorem at concrete inputs. -/
theorem quantity_normalization_witness :
    ordersPOST exC1DB exC1Req 0 "o1" "c1" = .ok (exC1Pair.1, exC1Pair.2) ∧
    (∀ i ∈ exC1Pair.2.items, 1 ≤ i.quantity) ∧
    (-3 : ℚ) ≤ 0 ∧ normalizeQuantity (.num (-3)) = 1 ∧
    (1 : ℚ) ≤ 7 ∧ normalizeQuantity (.num 7) = 7 := by
  have h : ordersPOST exC1DB exC1Req 0 "o1" "c1" = .ok (exC1Pair.1, exC1Pair.2) :=
    except_ok_of_toOption _ _ (by with_unfolding_all decide)
  exact ⟨h,
    quantity_normalization.2.2.2.2.2.2 exC1DB exC1Req 0 "o1" "c1"
      exC1Pair.1 exC1Pair.2 h,
    by norm_num,
    quantity_normalization.2.2.2.2.1 (-3) (by norm_num),
    by norm_num,
    quantity_normalization.2.2.2.2.2.1 7 (by norm_num)⟩

/-- Witness for the phone-validation theorem: a concrete rejected customer
creation and a concrete unvalidated order creation. -/
theorem phone_validation_witness :
    customersPOST exC1DB (some "N") (some "123") "c1"
      = .error ⟨400, "Phone must be exactly 10 digits"⟩ ∧
    ordersPOST exC1DB exC9Req 0 "o9" "c9" = .ok (exC9Pair.1, exC9Pair.2) ∧
    exC9Pair.2.customerPhone = ((exC9Req.customerPhone.getD "").trim) ∧
    (exC9Pair.2.customerPhone.length ≠ 10 →
      exC9Pair.1.customers = exC1DB.customers) := by
  have h : ordersPOST exC1DB exC9Req 0 "o9" "c9" = .ok (exC9Pair.1, exC9Pair.2) :=
    except_ok_of_toOption _ _ (by with_unfolding_all decide)
  have hm := phone_validation.2.2 exC1DB exC9Req 0 "o9" "c9" exC9Pair.1 exC9Pair.2 h
  exact ⟨phone_validation.1 exC1DB "N" "123" "c1" (by decide) (by decide)
    (Or.inl (by with_unfolding_all decide)), h, hm.1, hm.2⟩

/-- Witness for the current-cost stats theorem: raising the cost of the sold
product from 40 to 55 moves a past range's totalCost from 90 to 120 and its
profitMargin, while revenue stays 216. -/
theorem stats_use_current_product_cost_witness :
    productPATCH exStatsDB "p1" exC10Req = .ok exC10DB ∧
    (statsGET exC10DB 0 5).totalRevenue = (statsGET exStatsDB 0 5).totalRevenue ∧
    (statsGET exC10DB 0 5).totalCost = (statsGET exStatsDB 0 5).totalCost
      + (55 - productCostOf exStatsDB "p1") * soldQuantity exStatsDB "p1" 0 5 ∧
    (statsGET exStatsDB 0 5).totalCost = 90 ∧
    (statsGET exC10DB 0 5).totalCost = 120 ∧
    (statsGET exC10DB 0 5).profitMargin ≠ (statsGET exStatsDB 0 5).profitMargin := by
  have h : productPATCH exStatsDB "p1" exC10Req = .ok exC10DB :=
    except_ok_of_toOption _ _ (by with_unfolding_all decide)
  have hm := stats_use_current_product_cost.1 exStatsDB "p1" 55 exC10DB 0 5 h
  refine ⟨h, hm.2.1, hm.2.2.2.1, ?_, ?_, ?_⟩
  · with_unfolding_all decide
  · with_unfolding_all decide
  · with_unfolding_all decide
